import Mathlib

/-!
# CUDA driver demo programs `references/ptx-1/a.c` and `references/ptx_2/a.c`

Both programs are straight-line sequences of calls into the CUDA driver, each
followed by `assert(result == CUDA_SUCCESS)`.  The driver is external, so it is
modelled as an oracle: a function from everything the process has done so far
and the next call to a response.  The programs are embedded as monadic code
over an explicit machine state (handle variables, host memory, event log).

Platform conventions fixed here (Linux x86-64, the platform of the CUDA
driver): `sizeof(int) = 4`, `sizeof(long) = 8`, `size_t` is 64 bit, host memory
is little-endian, `CUDA_SUCCESS = 0`.  Host `malloc` in `ptx_2` is taken to
return a block (the source uses its result unchecked); the contents of the
block are whatever the initial heap holds.
-/

namespace Cuda

/-- Result code of a driver call (`CUresult` in `cuda.h`). -/
abbrev CUresult := Nat

/-- The success code (`CUDA_SUCCESS = 0` in `cuda.h`). -/
def CUDA_SUCCESS : CUresult := 0

/-- Handle variables of the two programs: the five globals declared at lines
5-9 of both files and the local `CUdeviceptr` variables of the two `main`s. -/
inductive Var where
  | cu_device | cu_context | cu_module | cu_function | cu_device_ptr
  | d_x | d_rs | d_gs | d_bs
  deriving DecidableEq, Repr

/-- Host arrays: `xs` of ptx-1 and `rs`, `gs`, `bs` of ptx_2. -/
inductive HostVar where
  | xs | rs | gs | bs
  deriving DecidableEq, Repr

/-- A handle passed by value: the variable it was read from and the value read
(`none` while the variable is still in its initial state). -/
structure HArg where
  var : Var
  val : Option Nat

/-- The driver entry points used by the two programs, with their arguments in
the order of `cuda.h`.  An output parameter `&v` is the variable `v`; a host
pointer is the host array it points to, together with the bytes the driver can
read through it; null pointers (`hStream`, `extra`) are `0`. -/
inductive Call where
  | cuInit (Flags : Nat)
  | cuDeviceGet (device : Var) (ordinal : Int)
  | cuCtxCreate_v2 (pctx : Var) (flags : Nat) (dev : HArg)
  | cuModuleLoad (pmod : Var) (fname : String)
  | cuModuleLoadData (pmod : Var) (image : String)
  | cuModuleGetFunction (hfunc : Var) (hmod : HArg) (name : String)
  | cuMemAlloc_v2 (dptr : Var) (bytesize : Nat)
  | cuMemcpyHtoD_v2 (dstDevice : HArg) (srcHost : HostVar) (srcBytes : Nat → Nat)
      (ByteCount : Nat)
  | cuLaunchKernel (f : HArg) (gridDimX gridDimY gridDimZ : Nat)
      (blockDimX blockDimY blockDimZ : Nat) (sharedMemBytes : Nat) (hStream : Nat)
      (kernelParams : List HArg) (extra : Nat)
  | cuMemcpyDtoH_v2 (dstHost : HostVar) (srcDevice : HArg) (ByteCount : Nat)

/-- What the driver hands back: the result code, the handle it stores through
the output pointer (if the call has one) and the bytes it stores into the host
destination (for a device-to-host copy). -/
structure Response where
  code : CUresult
  handle : Nat
  data : Nat → Nat

instance : Inhabited Response := ⟨⟨CUDA_SUCCESS, 0, fun _ => 0⟩⟩

/-- Observable events of a run, in program order. -/
inductive Event where
  | call (c : Call) (r : Response)
  | print (fmt : String) (args : List Int)

/-- The driver as an oracle: its response to a call may depend on the whole
history of the process. -/
abbrev Driver := List Event → Call → Response

/-- Name of the entry point of a call. -/
def Call.name : Call → String
  | .cuInit .. => "cuInit"
  | .cuDeviceGet .. => "cuDeviceGet"
  | .cuCtxCreate_v2 .. => "cuCtxCreate_v2"
  | .cuModuleLoad .. => "cuModuleLoad"
  | .cuModuleLoadData .. => "cuModuleLoadData"
  | .cuModuleGetFunction .. => "cuModuleGetFunction"
  | .cuMemAlloc_v2 .. => "cuMemAlloc_v2"
  | .cuMemcpyHtoD_v2 .. => "cuMemcpyHtoD_v2"
  | .cuLaunchKernel .. => "cuLaunchKernel"
  | .cuMemcpyDtoH_v2 .. => "cuMemcpyDtoH_v2"

/-- The handle variable a call writes through its output pointer. -/
def Call.out : Call → Option Var
  | .cuDeviceGet device _ => some device
  | .cuCtxCreate_v2 pctx _ _ => some pctx
  | .cuModuleLoad pmod _ => some pmod
  | .cuModuleLoadData pmod _ => some pmod
  | .cuModuleGetFunction hfunc _ _ => some hfunc
  | .cuMemAlloc_v2 dptr _ => some dptr
  | _ => none

/-- The handles a call receives as inputs. -/
def Call.inputs : Call → List HArg
  | .cuCtxCreate_v2 _ _ dev => [dev]
  | .cuModuleGetFunction _ hmod _ => [hmod]
  | .cuMemcpyHtoD_v2 dstDevice _ _ _ => [dstDevice]
  | .cuLaunchKernel f _ _ _ _ _ _ _ _ kernelParams _ => f :: kernelParams
  | .cuMemcpyDtoH_v2 _ srcDevice _ => [srcDevice]
  | _ => []

/-- Machine state of a program: handle variables, host memory as bytes, the
byte size of each host array (`0` before it exists) and the event log. -/
structure State where
  vars : Var → Option Nat
  host : HostVar → Nat → Nat
  hostSize : HostVar → Nat
  log : List Event

/-- Start of `main`: no handle written, no host array yet, nothing logged;
`heap` is the content that host memory happens to hold. -/
def State.init (heap : HostVar → Nat → Nat) : State :=
  { vars := fun _ => none, host := heap, hostSize := fun _ => 0, log := [] }

/-- Why a run stopped before the end of `main`. -/
inductive Halt where
  | assertFailed
  | outOfBounds
  deriving DecidableEq, Repr

/-- Result of running a piece of program. -/
inductive Outcome (α : Type) where
  | ok (a : α) (s : State)
  | halt (why : Halt) (s : State)

/-- Final state of a run, however it ended. -/
def Outcome.state {α : Type} : Outcome α → State
  | .ok _ s => s
  | .halt _ s => s

/-- Reason a run stopped early, `none` when it reached the end. -/
def Outcome.halted {α : Type} : Outcome α → Option Halt
  | .ok _ _ => none
  | .halt w _ => some w

/-- Programs: state transformers that consult the driver and may halt. -/
def M (α : Type) : Type := Driver → State → Outcome α

/-- Run a program against a driver from a state. -/
def M.run {α : Type} (m : M α) (d : Driver) (s : State) : Outcome α := m d s

instance : Monad M where
  pure a := fun _ s => .ok a s
  bind x f := fun d s =>
    match x d s with
    | .ok a s1 => f a d s1
    | .halt w s1 => .halt w s1

/-- Effect of a successful call on the process: the handle is stored through
the output pointer, a device-to-host copy fills the host destination. -/
def commit (c : Call) (r : Response) (s : State) : State :=
  match c with
  | .cuMemcpyDtoH_v2 dstHost _ ByteCount =>
      { s with
        host := Function.update s.host dstHost
          (fun i => if i < ByteCount then r.data i else s.host dstHost i) }
  | _ =>
      match c.out with
      | some v => { s with vars := Function.update s.vars v (some r.handle) }
      | none => s

/-- A driver call as seen from C: the driver is asked, call and response are
logged, the effect of a successful call is applied and the result code is
returned.  What a failing call may have stored is never read, since the assert
that follows stops the process. -/
def invoke (c : Call) : M CUresult := fun d s =>
  let r := d s.log c
  let s1 := { s with log := s.log ++ [Event.call c r] }
  .ok r.code (if r.code = CUDA_SUCCESS then commit c r s1 else s1)

/-- The C `assert`. -/
def assert (b : Bool) : M Unit := fun _ s =>
  if b then .ok () s else .halt .assertFailed s

/-- Read a handle variable to pass it by value. -/
def rd (v : Var) : M HArg := fun _ s => .ok ⟨v, s.vars v⟩ s

/-- The C `printf`, recorded as format string and argument values. -/
def printf (fmt : String) (args : List Int) : M Unit := fun _ s =>
  .ok () { s with log := s.log ++ [Event.print fmt args] }

def sizeof_int : Nat := 4
def sizeof_long : Nat := 8

/-- Wrap to the range of a 32-bit `int`. -/
def wrap32 (i : Int) : Int := (i + 2 ^ 31) % 2 ^ 32 - 2 ^ 31

/-- Conversion of an integer to `size_t`. -/
def toSizeT (i : Int) : Nat := (i % 2 ^ 64).toNat

/-- Product of two `size_t` values. -/
def mulSizeT (a b : Nat) : Nat := a * b % 2 ^ 64

/-- Body of a counting loop: `n` rounds starting at `v`. -/
def forRounds : Nat → Int → (Int → M Unit) → M Unit
  | 0, _, _ => pure ()
  | n + 1, v, body => do
      body v
      forRounds n (wrap32 (v + 1)) body

/-- The C loop `for (int v = lo; v < hi; ++v) body`. -/
def forLoop (lo hi : Int) (body : Int → M Unit) : M Unit :=
  forRounds (hi - lo).toNat lo body

/-- Unsigned little-endian value of `width` bytes of `m` starting at `off`. -/
def leValue (m : Nat → Nat) (off : Nat) : Nat → Nat
  | 0 => 0
  | width + 1 => m off % 256 + 256 * leValue m (off + 1) width

/-- Two's-complement reading of an unsigned value of `bits` bits. -/
def toSigned (bits : Nat) (u : Nat) : Int :=
  if u < 2 ^ (bits - 1) then (u : Int) else (u : Int) - 2 ^ bits

/-- Declaration `T a[n] = {}` of a zero-filled array of `bytes` bytes. -/
def declArray (a : HostVar) (bytes : Nat) : M Unit := fun _ s =>
  .ok () { s with
    host := Function.update s.host a (fun _ => 0)
    hostSize := Function.update s.hostSize a bytes }

/-- Host `malloc(bytes)` bound to the pointer `a`; the block is not
written. -/
def malloc (a : HostVar) (bytes : Nat) : M Unit := fun _ s =>
  .ok () { s with hostSize := Function.update s.hostSize a bytes }

/-- The C `sizeof(a)` of a declared array. -/
def sizeof (a : HostVar) : M Nat := fun _ s => .ok (s.hostSize a) s

/-- Assignment `a[i] = v` to an `int` array; outside the array it is a memory
fault. -/
def storeInt (a : HostVar) (i : Int) (v : Int) : M Unit := fun _ s =>
  if 0 ≤ i ∧ sizeof_int * i.toNat + sizeof_int ≤ s.hostSize a then
    .ok () { s with
      host := Function.update s.host a (fun o =>
        if sizeof_int * i.toNat ≤ o ∧ o < sizeof_int * i.toNat + sizeof_int then
          (v % 2 ^ 32).toNat / 256 ^ (o - sizeof_int * i.toNat) % 256
        else s.host a o) }
  else .halt .outOfBounds s

/-- Read `a[i]` from an `int` array. -/
def loadInt (a : HostVar) (i : Int) : M Int := fun _ s =>
  if 0 ≤ i ∧ sizeof_int * i.toNat + sizeof_int ≤ s.hostSize a then
    .ok (toSigned 32 (leValue (s.host a) (sizeof_int * i.toNat) sizeof_int)) s
  else .halt .outOfBounds s

/-- Read `a[i]` from a `long` array. -/
def loadLong (a : HostVar) (i : Int) : M Int := fun _ s =>
  if 0 ≤ i ∧ sizeof_long * i.toNat + sizeof_long ≤ s.hostSize a then
    .ok (toSigned 64 (leValue (s.host a) (sizeof_long * i.toNat) sizeof_long)) s
  else .halt .outOfBounds s

def cuInit (Flags : Nat) : M CUresult := invoke (.cuInit Flags)
def cuDeviceGet (device : Var) (ordinal : Int) : M CUresult :=
  invoke (.cuDeviceGet device ordinal)
def cuCtxCreate_v2 (pctx : Var) (flags : Nat) (dev : HArg) : M CUresult :=
  invoke (.cuCtxCreate_v2 pctx flags dev)
def cuModuleLoad (pmod : Var) (fname : String) : M CUresult :=
  invoke (.cuModuleLoad pmod fname)
def cuModuleLoadData (pmod : Var) (image : String) : M CUresult :=
  invoke (.cuModuleLoadData pmod image)
def cuModuleGetFunction (hfunc : Var) (hmod : HArg) (name : String) : M CUresult :=
  invoke (.cuModuleGetFunction hfunc hmod name)
def cuMemAlloc_v2 (dptr : Var) (bytesize : Nat) : M CUresult :=
  invoke (.cuMemAlloc_v2 dptr bytesize)
/-- The source pointer is the host array `srcHost`; the driver sees its
current bytes. -/
def cuMemcpyHtoD_v2 (dstDevice : HArg) (srcHost : HostVar) (ByteCount : Nat) :
    M CUresult := fun d s =>
  invoke (.cuMemcpyHtoD_v2 dstDevice srcHost (s.host srcHost) ByteCount) d s
/-- The C argument `kernelParams` is an array of pointers to the argument
variables; the driver reads the variables through them at the launch. -/
def cuLaunchKernel (f : HArg) (gridDimX gridDimY gridDimZ : Nat)
    (blockDimX blockDimY blockDimZ : Nat) (sharedMemBytes : Nat) (hStream : Nat)
    (kernelParams : List Var) (extra : Nat) : M CUresult := fun d s =>
  invoke (.cuLaunchKernel f gridDimX gridDimY gridDimZ blockDimX blockDimY blockDimZ
    sharedMemBytes hStream (kernelParams.map fun v => ⟨v, s.vars v⟩) extra) d s
def cuMemcpyDtoH_v2 (dstHost : HostVar) (srcDevice : HArg) (ByteCount : Nat) :
    M CUresult :=
  invoke (.cuMemcpyDtoH_v2 dstHost srcDevice ByteCount)

namespace ptx_1

/-- The `main` of `references/ptx-1/a.c`. -/
def main : M Unit := do
  let mut result := CUDA_SUCCESS
  result ← cuInit 0
  assert (result == CUDA_SUCCESS)
  result ← cuDeviceGet .cu_device 0
  assert (result == CUDA_SUCCESS)
  result ← cuCtxCreate_v2 .cu_context 0 (← rd .cu_device)
  assert (result == CUDA_SUCCESS)
  declArray .xs (sizeof_int * 32)
  storeInt .xs 0 42
  result ← cuModuleLoad .cu_module "b.ptx"
  assert (result == CUDA_SUCCESS)
  result ← cuModuleGetFunction .cu_function (← rd .cu_module) "f"
  assert (result == CUDA_SUCCESS)
  result ← cuMemAlloc_v2 .d_x (← sizeof .xs)
  assert (result == CUDA_SUCCESS)
  result ← cuMemcpyHtoD_v2 (← rd .d_x) .xs (← sizeof .xs)
  assert (result == CUDA_SUCCESS)
  let args := [Var.d_x]
  result ← cuLaunchKernel (← rd .cu_function) 1 1 1 32 1 1 0 0 args 0
  assert (result == CUDA_SUCCESS)
  result ← cuMemcpyDtoH_v2 .xs (← rd .d_x) (← sizeof .xs)
  assert (result == CUDA_SUCCESS)
  printf "%d\n" [← loadInt .xs 0]

end ptx_1

namespace ptx_2

/-- The PTX text held in the global `buf` (line 35 of `references/ptx_2/a.c`). -/
def buf : String :=
  ".version 8.8\n.target sm_52\n.address_size 64\n\n           // .globl       f\n.visible .entry f(\n    .param .u64 ps_r,\n    .param .u64 ps_g,\n    .param .u64 ps_b\n)\n\x7b\n    .reg .b64 %rd<100>;\n    .reg .b32 %r<100>;\n    .reg .b32 %f<100>;\n\n    ld.param.u64 %rd1, [ps_r];\n    ld.param.u64 %rd2, [ps_g];\n    ld.param.u64 %rd3, [ps_b];\n    cvta.to.global.u64 %rd1, %rd1;\n    cvta.to.global.u64 %rd2, %rd2;\n    cvta.to.global.u64 %rd3, %rd3;\n\n    ret;\n\x7d\n\n"

/-- The `main` of `references/ptx_2/a.c`. -/
def main : M Unit := do
  let mut result := CUDA_SUCCESS
  result ← cuInit 0
  assert (result == CUDA_SUCCESS)
  result ← cuDeviceGet .cu_device 0
  assert (result == CUDA_SUCCESS)
  result ← cuCtxCreate_v2 .cu_context 0 (← rd .cu_device)
  assert (result == CUDA_SUCCESS)
  result ← cuModuleLoadData .cu_module buf
  assert (result == CUDA_SUCCESS)
  result ← cuModuleGetFunction .cu_function (← rd .cu_module) "f"
  assert (result == CUDA_SUCCESS)
  let len : Int := wrap32 (256 * 256)
  malloc .rs (mulSizeT sizeof_long (toSizeT len))
  malloc .gs (mulSizeT sizeof_long (toSizeT len))
  malloc .bs (mulSizeT sizeof_long (toSizeT len))
  result ← cuMemAlloc_v2 .d_rs (mulSizeT sizeof_long (toSizeT len))
  assert (result == CUDA_SUCCESS)
  result ← cuMemAlloc_v2 .d_gs (mulSizeT sizeof_long (toSizeT len))
  assert (result == CUDA_SUCCESS)
  result ← cuMemAlloc_v2 .d_bs (mulSizeT sizeof_long (toSizeT len))
  assert (result == CUDA_SUCCESS)
  result ← cuMemcpyHtoD_v2 (← rd .d_rs) .rs (mulSizeT sizeof_long (toSizeT len))
  assert (result == CUDA_SUCCESS)
  result ← cuMemcpyHtoD_v2 (← rd .d_gs) .gs (mulSizeT sizeof_long (toSizeT len))
  assert (result == CUDA_SUCCESS)
  result ← cuMemcpyHtoD_v2 (← rd .d_bs) .bs (mulSizeT sizeof_long (toSizeT len))
  assert (result == CUDA_SUCCESS)
  let args := [Var.d_rs, Var.d_gs, Var.d_bs]
  result ← cuLaunchKernel (← rd .cu_function) 256 1 1 256 1 1 0 0 args 0
  assert (result == CUDA_SUCCESS)
  result ← cuMemcpyDtoH_v2 .rs (← rd .d_rs) (mulSizeT sizeof_long (toSizeT len))
  assert (result == CUDA_SUCCESS)
  result ← cuMemcpyDtoH_v2 .gs (← rd .d_gs) (mulSizeT sizeof_long (toSizeT len))
  assert (result == CUDA_SUCCESS)
  result ← cuMemcpyDtoH_v2 .bs (← rd .d_bs) (mulSizeT sizeof_long (toSizeT len))
  assert (result == CUDA_SUCCESS)
  forLoop 0 1 fun y =>
    forLoop 0 16 fun x => do
      let i := wrap32 (y * 256 + x)
      printf "%ld %ld %ld\n" [← loadLong .rs i, ← loadLong .gs i, ← loadLong .bs i]

end ptx_2

/-! ## Reading a log -/

/-- The driver calls of a log with their responses, in order. -/
def callsOf : List Event → List (Call × Response)
  | [] => []
  | .call c r :: es => (c, r) :: callsOf es
  | .print _ _ :: es => callsOf es

/-- The printed lines of a log, in order. -/
def printsOf : List Event → List (String × List Int)
  | [] => []
  | .call _ _ :: es => printsOf es
  | .print fmt args :: es => (fmt, args) :: printsOf es

/-- The log in which the calls `cs` are answered by `ρ i`, `ρ (i+1)`, ... -/
def eventsFrom (ρ : Nat → Response) : Nat → List Call → List Event
  | _, [] => []
  | i, c :: cs => .call c (ρ i) :: eventsFrom ρ (i + 1) cs

/-- Handle variables as the successful calls of a log leave them. -/
def varsOf (log : List Event) : Var → Option Nat :=
  log.foldl (fun vs e =>
    match e with
    | .call c r =>
        if r.code = CUDA_SUCCESS then
          match c.out with
          | some v => Function.update vs v (some r.handle)
          | none => vs
        else vs
    | .print _ _ => vs) (fun _ => none)

/-- A log is generated by the driver `d` when every response in it is what `d`
answers to the call after the events before it. -/
def GeneratedFrom (d : Driver) : List Event → List Event → Prop
  | _, [] => True
  | h, .call c r :: es => d h c = r ∧ GeneratedFrom d (h ++ [.call c r]) es
  | h, .print fmt args :: es => GeneratedFrom d (h ++ [.print fmt args]) es

/-- Normal form of a run of a straight-line program whose driver calls are
`cs`, each checked by an assert, and which ends by logging `ps`: the first `k`
calls succeeded; if `k` is not the number of calls, call `k` failed and the
run stopped there. -/
def Shape (d : Driver) (o : Outcome Unit) (cs : List Call) (ps : List Event)
    (ρ : Nat → Response) (k : Nat) : Prop :=
  k ≤ cs.length ∧
  (∀ j < k, (ρ j).code = CUDA_SUCCESS) ∧
  (k < cs.length → (ρ k).code ≠ CUDA_SUCCESS) ∧
  o.state.log = eventsFrom ρ 0 (cs.take (k + 1)) ++ (if k = cs.length then ps else []) ∧
  o.halted = (if k = cs.length then none else some Halt.assertFailed) ∧
  o.state.vars = varsOf o.state.log ∧
  GeneratedFrom d [] o.state.log

namespace ptx_1

/-- Bytes of `xs` after `int xs[32] = {}; xs[0] = 42;`. -/
def xs0 : Nat → Nat := fun o => if o < 4 then 42 / 256 ^ o % 256 else 0

/-- The driver calls of ptx-1 in program order, when the earlier ones
succeeded with the responses `ρ`. -/
def script (ρ : Nat → Response) : List Call :=
  [ .cuInit 0,
    .cuDeviceGet .cu_device 0,
    .cuCtxCreate_v2 .cu_context 0 ⟨.cu_device, some (ρ 1).handle⟩,
    .cuModuleLoad .cu_module "b.ptx",
    .cuModuleGetFunction .cu_function ⟨.cu_module, some (ρ 3).handle⟩ "f",
    .cuMemAlloc_v2 .d_x 128,
    .cuMemcpyHtoD_v2 ⟨.d_x, some (ρ 5).handle⟩ .xs xs0 128,
    .cuLaunchKernel ⟨.cu_function, some (ρ 4).handle⟩ 1 1 1 32 1 1 0 0
      [⟨.d_x, some (ρ 5).handle⟩] 0,
    .cuMemcpyDtoH_v2 .xs ⟨.d_x, some (ρ 5).handle⟩ 128 ]

/-- Bytes of `xs` after the device-to-host copy answered by `ρ 8`. -/
def xsFinal (ρ : Nat → Response) : Nat → Nat :=
  fun i => if i < 128 then (ρ 8).data i else xs0 i

/-- What ptx-1 prints at the end of an all-success run. -/
def output (ρ : Nat → Response) : List Event :=
  [ .print "%d\n" [toSigned 32 (leValue (xsFinal ρ) 0 4)] ]

end ptx_1

namespace ptx_2

/-- The driver calls of ptx_2 in program order, when the earlier ones
succeeded with the responses `ρ`; `heap` is the initial host memory. -/
def script (heap : HostVar → Nat → Nat) (ρ : Nat → Response) : List Call :=
  [ .cuInit 0,
    .cuDeviceGet .cu_device 0,
    .cuCtxCreate_v2 .cu_context 0 ⟨.cu_device, some (ρ 1).handle⟩,
    .cuModuleLoadData .cu_module buf,
    .cuModuleGetFunction .cu_function ⟨.cu_module, some (ρ 3).handle⟩ "f",
    .cuMemAlloc_v2 .d_rs 524288,
    .cuMemAlloc_v2 .d_gs 524288,
    .cuMemAlloc_v2 .d_bs 524288,
    .cuMemcpyHtoD_v2 ⟨.d_rs, some (ρ 5).handle⟩ .rs (heap .rs) 524288,
    .cuMemcpyHtoD_v2 ⟨.d_gs, some (ρ 6).handle⟩ .gs (heap .gs) 524288,
    .cuMemcpyHtoD_v2 ⟨.d_bs, some (ρ 7).handle⟩ .bs (heap .bs) 524288,
    .cuLaunchKernel ⟨.cu_function, some (ρ 4).handle⟩ 256 1 1 256 1 1 0 0
      [⟨.d_rs, some (ρ 5).handle⟩, ⟨.d_gs, some (ρ 6).handle⟩, ⟨.d_bs, some (ρ 7).handle⟩] 0,
    .cuMemcpyDtoH_v2 .rs ⟨.d_rs, some (ρ 5).handle⟩ 524288,
    .cuMemcpyDtoH_v2 .gs ⟨.d_gs, some (ρ 6).handle⟩ 524288,
    .cuMemcpyDtoH_v2 .bs ⟨.d_bs, some (ρ 7).handle⟩ 524288 ]

/-- Bytes of a host array after the device-to-host copy answered by `r`. -/
def copied (old : Nat → Nat) (r : Response) : Nat → Nat :=
  fun i => if i < 524288 then r.data i else old i

/-- The `long` at index `x` of a host array given by its bytes. -/
def longAt (m : Nat → Nat) (x : Nat) : Int := toSigned 64 (leValue m (8 * x) 8)

/-- What ptx_2 prints at the end of an all-success run. -/
def output (heap : HostVar → Nat → Nat) (ρ : Nat → Response) : List Event :=
  (List.range 16).map fun x =>
    .print "%ld %ld %ld\n"
      [longAt (copied (heap .rs) (ρ 12)) x, longAt (copied (heap .gs) (ρ 13)) x,
       longAt (copied (heap .bs) (ρ 14)) x]

end ptx_2

/-! ## The two programs side by side -/

/-- The two programs of the repository. -/
inductive Program where
  | ptx_1
  | ptx_2
  deriving DecidableEq, Repr

namespace Program

/-- The `main` of a program. -/
def main : Program → M Unit
  | .ptx_1 => Cuda.ptx_1.main
  | .ptx_2 => Cuda.ptx_2.main

/-- The process: `main` run from the initial state against a driver. -/
def run (p : Program) (d : Driver) (heap : HostVar → Nat → Nat) : Outcome Unit :=
  p.main.run d (State.init heap)

/-- The driver calls of a program in program order. -/
def script : Program → (HostVar → Nat → Nat) → (Nat → Response) → List Call
  | .ptx_1, _, ρ => Cuda.ptx_1.script ρ
  | .ptx_2, heap, ρ => Cuda.ptx_2.script heap ρ

/-- What a program prints at the end of an all-success run. -/
def output : Program → (HostVar → Nat → Nat) → (Nat → Response) → List Event
  | .ptx_1, _, ρ => Cuda.ptx_1.output ρ
  | .ptx_2, heap, ρ => Cuda.ptx_2.output heap ρ

/-- Number of driver calls of a program. -/
def numCalls : Program → Nat
  | .ptx_1 => 9
  | .ptx_2 => 15

/-- Number of successful calls after which the host arrays exist. -/
def declaredAt : Program → Nat
  | .ptx_1 => 3
  | .ptx_2 => 5

/-- Byte sizes of the host arrays once they exist. -/
def sizes : Program → HostVar → Nat
  | .ptx_1 => Function.update (fun _ => 0) .xs 128
  | .ptx_2 =>
      Function.update (Function.update (Function.update (fun _ => 0) .rs 524288) .gs 524288)
        .bs 524288

/-- Host memory at the end of an all-success run. -/
def hostEnd : Program → (HostVar → Nat → Nat) → (Nat → Response) → HostVar → Nat → Nat
  | .ptx_1, heap, ρ => Function.update heap .xs (Cuda.ptx_1.xsFinal ρ)
  | .ptx_2, heap, ρ =>
      Function.update
        (Function.update (Function.update heap .rs (Cuda.ptx_2.copied (heap .rs) (ρ 12)))
          .gs (Cuda.ptx_2.copied (heap .gs) (ρ 13)))
        .bs (Cuda.ptx_2.copied (heap .bs) (ρ 14))

end Program

/-- Normal form of a run of a program: the shape of its log and variables,
the sizes of the host arrays once declared, and host memory at the end of an
all-success run. -/
def Normal (p : Program) (d : Driver) (heap : HostVar → Nat → Nat) (o : Outcome Unit) : Prop :=
  ∃ ρ k, Shape d o (p.script heap ρ) (p.output heap ρ) ρ k ∧
    (p.declaredAt ≤ k → o.state.hostSize = p.sizes) ∧
    (k = p.numCalls → o.state.host = p.hostEnd heap ρ)

/-! ## Observations on outcomes -/

/-- The driver calls issued in a run, with their responses. -/
def Outcome.calls {α : Type} (o : Outcome α) : List (Call × Response) := callsOf o.state.log

/-- The lines printed in a run. -/
def Outcome.prints {α : Type} (o : Outcome α) : List (String × List Int) :=
  printsOf o.state.log

/-- Every driver call issued in the run returned `CUDA_SUCCESS`. -/
def AllSuccess {α : Type} (o : Outcome α) : Prop :=
  ∀ e ∈ o.calls, e.2.code = CUDA_SUCCESS

/-- The calls `cs` paired with the responses `ρ 0`, `ρ 1`, ... -/
def answered (ρ : Nat → Response) (cs : List Call) : List (Call × Response) :=
  callsOf (eventsFrom ρ 0 cs)

/-- The host array a call reads from or writes to. -/
def Call.hostVar : Call → Option HostVar
  | .cuMemcpyHtoD_v2 _ srcHost _ _ => some srcHost
  | .cuMemcpyDtoH_v2 dstHost _ _ => some dstHost
  | _ => none

/-- The variables and the host array a call refers to. -/
def Call.refs (c : Call) : Option Var × List Var × Option HostVar :=
  (c.out, c.inputs.map (fun a => a.var), c.hostVar)

namespace Program

/-- Entry points in the order the five stages of a program call them. -/
def stages : Program → List String
  | .ptx_1 =>
      ["cuInit", "cuDeviceGet", "cuCtxCreate_v2", "cuModuleLoad", "cuModuleGetFunction",
        "cuMemAlloc_v2", "cuMemcpyHtoD_v2", "cuLaunchKernel", "cuMemcpyDtoH_v2"]
  | .ptx_2 =>
      ["cuInit", "cuDeviceGet", "cuCtxCreate_v2", "cuModuleLoadData", "cuModuleGetFunction",
        "cuMemAlloc_v2", "cuMemAlloc_v2", "cuMemAlloc_v2",
        "cuMemcpyHtoD_v2", "cuMemcpyHtoD_v2", "cuMemcpyHtoD_v2", "cuLaunchKernel",
        "cuMemcpyDtoH_v2", "cuMemcpyDtoH_v2", "cuMemcpyDtoH_v2"]

/-- The call that loads the module: from the file `b.ptx` in ptx-1, from the
string `buf` in ptx_2. -/
def moduleLoad : Program → Call
  | .ptx_1 => .cuModuleLoad .cu_module "b.ptx"
  | .ptx_2 => .cuModuleLoadData .cu_module Cuda.ptx_2.buf

end Program

/-- Number of driver calls in a log. -/
def callCount : List Event → Nat
  | [] => 0
  | .call _ _ :: es => callCount es + 1
  | .print _ _ :: es => callCount es

/-- A driver whose call number `n` (counted from 0) fails with code 1 and whose
other calls succeed; every handle it hands out is 7. -/
def failAt (n : Nat) : Driver := fun h _ =>
  ⟨if callCount h = n then 1 else CUDA_SUCCESS, 7, fun _ => 0⟩

/-- A driver all of whose calls succeed. -/
def okDriver : Driver := fun _ _ => ⟨CUDA_SUCCESS, 7, fun _ => 0⟩

/-- Host memory filled with zero bytes. -/
def zeroHeap : HostVar → Nat → Nat := fun _ _ => 0

/-- The handle argument `a` carries a value that a successful call of `hist`
wrote into the variable `a` was read from. -/
def producedBy (hist : List Event) (a : HArg) : Bool :=
  hist.any fun e =>
    match e with
    | .call c r =>
        decide (c.out = some a.var) && decide (r.code = CUDA_SUCCESS) &&
          decide (a.val = some r.handle)
    | .print _ _ => false

/-- Every call of the log receives only handles produced by successful calls
before it; `hist` holds the events that precede the log. -/
def handlesOkFrom (hist : List Event) : List Event → Bool
  | [] => true
  | .call c r :: es =>
      c.inputs.all (producedBy hist) && handlesOkFrom (hist ++ [.call c r]) es
  | .print fmt args :: es => handlesOkFrom (hist ++ [.print fmt args]) es

/-- The handle-dependency invariant of a log. -/
def handlesOk (log : List Event) : Bool := handlesOkFrom [] log

/-- The buffer a call allocates or copies: the host array (none for an
allocation), the device pointer variable and the byte count. -/
def Call.transfer : Call → Option (Option HostVar × Var × Nat)
  | .cuMemAlloc_v2 dptr bytesize => some (none, dptr, bytesize)
  | .cuMemcpyHtoD_v2 dstDevice srcHost _ ByteCount =>
      some (some srcHost, dstDevice.var, ByteCount)
  | .cuMemcpyDtoH_v2 dstHost srcDevice ByteCount =>
      some (some dstHost, srcDevice.var, ByteCount)
  | _ => none

namespace Program

/-- The host arrays of a program, each with the device pointer variable it is
staged through. -/
def buffers : Program → List (HostVar × Var)
  | .ptx_1 => [(.xs, .d_x)]
  | .ptx_2 => [(.rs, .d_rs), (.gs, .d_gs), (.bs, .d_bs)]

/-- Number of elements of each host array: `int xs[32]`, `256 * 256` longs. -/
def elements : Program → Nat
  | .ptx_1 => 32
  | .ptx_2 => 65536

/-- Byte size of an element of the host arrays. -/
def elemSize : Program → Nat
  | .ptx_1 => sizeof_int
  | .ptx_2 => sizeof_long

/-- Byte size of each host array. -/
def bufferBytes (p : Program) : Nat := p.elements * p.elemSize

/-- The allocations and copies of an all-success run, in order. -/
def transfers : Program → List (Option HostVar × Var × Nat)
  | .ptx_1 => [(none, .d_x, 128), (some .xs, .d_x, 128), (some .xs, .d_x, 128)]
  | .ptx_2 =>
      [(none, .d_rs, 524288), (none, .d_gs, 524288), (none, .d_bs, 524288),
        (some .rs, .d_rs, 524288), (some .gs, .d_gs, 524288), (some .bs, .d_bs, 524288),
        (some .rs, .d_rs, 524288), (some .gs, .d_gs, 524288), (some .bs, .d_bs, 524288)]

end Program

/-- Whether a call is a kernel launch. -/
def Call.isLaunch : Call → Bool
  | .cuLaunchKernel .. => true
  | _ => false

/-- The device pointer variable an allocation writes. -/
def Call.allocated : Call → Option Var
  | .cuMemAlloc_v2 dptr _ => some dptr
  | _ => none

/-- The `int` at index `i` of a host array given by its bytes. -/
def intAt (m : Nat → Nat) (i : Nat) : Int := toSigned 32 (leValue m (sizeof_int * i) sizeof_int)

namespace Program

/-- The `gridDimX` of the launch (`gridDimY = gridDimZ = 1`). -/
def gridDimX : Program → Nat
  | .ptx_1 => 1
  | .ptx_2 => 256

/-- The `blockDimX` of the launch (`blockDimY = blockDimZ = 1`). -/
def blockDimX : Program → Nat
  | .ptx_1 => 32
  | .ptx_2 => 256

/-- The lines a program prints from host memory `host`: `xs[0]` in ptx-1;
`rs[x]`, `gs[x]`, `bs[x]` for `x = 0, ..., 15` in ptx_2. -/
def lines : Program → (HostVar → Nat → Nat) → List (String × List Int)
  | .ptx_1, host => [("%d\n", [intAt (host .xs) 0])]
  | .ptx_2, host =>
      (List.range 16).map fun x =>
        ("%ld %ld %ld\n",
          [Cuda.ptx_2.longAt (host .rs) x, Cuda.ptx_2.longAt (host .gs) x,
            Cuda.ptx_2.longAt (host .bs) x])

/-- The driver entry points a program uses. -/
def operations : Program → List String
  | .ptx_1 =>
      ["cuInit", "cuDeviceGet", "cuCtxCreate_v2", "cuModuleLoad", "cuModuleGetFunction",
        "cuMemAlloc_v2", "cuMemcpyHtoD_v2", "cuLaunchKernel", "cuMemcpyDtoH_v2"]
  | .ptx_2 =>
      ["cuInit", "cuDeviceGet", "cuCtxCreate_v2", "cuModuleLoadData", "cuModuleGetFunction",
        "cuMemAlloc_v2", "cuMemcpyHtoD_v2", "cuLaunchKernel", "cuMemcpyDtoH_v2"]

end Program

/-- Driver entry points that release a handle: freeing device memory,
unloading a module, destroying a context. -/
def releaseOps : List String :=
  ["cuMemFree", "cuMemFree_v2", "cuModuleUnload", "cuCtxDestroy", "cuCtxDestroy_v2"]


/-! ## Proofs -/


/-! ## Running programs -/

theorem bind_apply {α β : Type} (x : M α) (f : α → M β) (d : Driver) (s : State) :
    (x >>= f) d s = match x d s with
      | .ok a s1 => f a d s1
      | .halt w s1 => .halt w s1 := rfl

theorem pure_apply {α : Type} (a : α) (d : Driver) (s : State) :
    (pure a : M α) d s = .ok a s := rfl

theorem invoke_eq (c : Call) (d : Driver) (s : State) :
    invoke c d s = .ok (d s.log c).code
      (if (d s.log c).code = CUDA_SUCCESS
        then commit c (d s.log c) { s with log := s.log ++ [Event.call c (d s.log c)] }
        else { s with log := s.log ++ [Event.call c (d s.log c)] }) := rfl

theorem len_bytes : mulSizeT sizeof_long (toSizeT (wrap32 (256 * 256))) = 524288 := by decide

theorem len_bytes_norm : mulSizeT 8 (toSizeT (wrap32 65536)) = 524288 := by decide

theorem range16 :
    List.range 16 = [0, 1, 2, 3, 4, 5, 6, 7, 8, 9, 10, 11, 12, 13, 14, 15] := by decide

theorem ptx_1.xs0_eq :
    ptx_1.xs0 = fun o => if o < 4 then 42 / 256 ^ o % 256 else 0 := rfl

theorem ptx_1.xsFinal_eq (ρ : Nat → Response) :
    ptx_1.xsFinal ρ = fun i => if i < 128 then (ρ 8).data i else ptx_1.xs0 i := rfl

theorem ptx_2.copied_eq (old : Nat → Nat) (r : Response) :
    ptx_2.copied old r = fun i => if i < 524288 then r.data i else old i := rfl

/-- The print loop of ptx_2 on three host arrays of 524288 bytes: sixteen
lines, no fault. -/
theorem ptx_2.printLoop_eq (d : Driver) (s : State) (hr : s.hostSize .rs = 524288)
    (hg : s.hostSize .gs = 524288) (hb : s.hostSize .bs = 524288) :
    (forLoop 0 1 fun y =>
      forLoop 0 16 fun x => do
        let i := wrap32 (y * 256 + x)
        printf "%ld %ld %ld\n" [← loadLong .rs i, ← loadLong .gs i, ← loadLong .bs i]) d s =
      .ok () { s with
        log := s.log ++ (List.range 16).map (fun x =>
          Event.print "%ld %ld %ld\n"
            [ptx_2.longAt (s.host .rs) x, ptx_2.longAt (s.host .gs) x,
              ptx_2.longAt (s.host .bs) x]) } := by
  simp [forLoop, forRounds, bind_apply, pure_apply, loadLong, printf, wrap32, hr, hg, hb,
    ptx_2.longAt, range16, sizeof_long]


set_option maxHeartbeats 2000000 in
/-- Every run of ptx-1 has the normal form of a checked straight-line program
over its script. -/
theorem run_normal_ptx_1 (d : Driver) (heap : HostVar → Nat → Nat) :
    Normal .ptx_1 d heap (ptx_1.main.run d (State.init heap)) := by
  simp only [ptx_1.main, M.run, bind_apply, pure_apply, cuInit, cuDeviceGet, cuCtxCreate_v2,
    cuModuleLoad, cuModuleGetFunction, cuMemAlloc_v2, cuMemcpyHtoD_v2, cuLaunchKernel,
    cuMemcpyDtoH_v2, State.init]
  rw [invoke_eq]
  generalize h1 : d _ _ = r1
  by_cases c1 : r1.code = CUDA_SUCCESS
  swap
  · unfold Normal
    refine ⟨fun n => [r1].getD n default, 0, ?_⟩
    simp [c1, sizeof_int, assert, rd, sizeof, declArray, storeInt, loadInt, printf, commit,
      Call.out, beq_self_eq_true, List.nil_append, List.cons_append, List.map,
      Function.update_same, Normal, Program.script, Program.output, Program.numCalls,
      Program.declaredAt, Program.sizes, Program.hostEnd, Shape, Outcome.state, Outcome.halted,
      ptx_1.script, ptx_1.output, ptx_1.xsFinal_eq, ptx_1.xs0_eq, eventsFrom, varsOf,
      GeneratedFrom, Call.out, Nat.forall_lt_succ]
    exact h1
  simp [c1, sizeof_int, assert, rd, sizeof, declArray, storeInt, loadInt, printf, commit,
    Call.out, beq_self_eq_true, List.nil_append, List.cons_append, List.map,
    Function.update_same]
  rw [invoke_eq]
  generalize h2 : d _ _ = r2
  by_cases c2 : r2.code = CUDA_SUCCESS
  swap
  · unfold Normal
    refine ⟨fun n => [r1, r2].getD n default, 1, ?_⟩
    simp [c1, c2, sizeof_int, assert, rd, sizeof, declArray, storeInt, loadInt, printf, commit,
      Call.out, beq_self_eq_true, List.nil_append, List.cons_append, List.map,
      Function.update_same, Normal, Program.script, Program.output, Program.numCalls,
      Program.declaredAt, Program.sizes, Program.hostEnd, Shape, Outcome.state, Outcome.halted,
      ptx_1.script, ptx_1.output, ptx_1.xsFinal_eq, ptx_1.xs0_eq, eventsFrom, varsOf,
      GeneratedFrom, Call.out, Nat.forall_lt_succ]
    exact ⟨h1, h2⟩
  simp [c2, sizeof_int, assert, rd, sizeof, declArray, storeInt, loadInt, printf, commit,
    Call.out, beq_self_eq_true, List.nil_append, List.cons_append, List.map,
    Function.update_same]
  rw [invoke_eq]
  generalize h3 : d _ _ = r3
  by_cases c3 : r3.code = CUDA_SUCCESS
  swap
  · unfold Normal
    refine ⟨fun n => [r1, r2, r3].getD n default, 2, ?_⟩
    simp [c1, c2, c3, sizeof_int, assert, rd, sizeof, declArray, storeInt, loadInt, printf,
      commit, Call.out, beq_self_eq_true, List.nil_append, List.cons_append, List.map,
      Function.update_same, Normal, Program.script, Program.output, Program.numCalls,
      Program.declaredAt, Program.sizes, Program.hostEnd, Shape, Outcome.state, Outcome.halted,
      ptx_1.script, ptx_1.output, ptx_1.xsFinal_eq, ptx_1.xs0_eq, eventsFrom, varsOf,
      GeneratedFrom, Call.out, Nat.forall_lt_succ]
    exact ⟨h1, h2, h3⟩
  simp [c3, sizeof_int, assert, rd, sizeof, declArray, storeInt, loadInt, printf, commit,
    Call.out, beq_self_eq_true, List.nil_append, List.cons_append, List.map,
    Function.update_same]
  rw [invoke_eq]
  generalize h4 : d _ _ = r4
  by_cases c4 : r4.code = CUDA_SUCCESS
  swap
  · unfold Normal
    refine ⟨fun n => [r1, r2, r3, r4].getD n default, 3, ?_⟩
    simp [c1, c2, c3, c4, sizeof_int, assert, rd, sizeof, declArray, storeInt, loadInt, printf,
      commit, Call.out, beq_self_eq_true, List.nil_append, List.cons_append, List.map,
      Function.update_same, Normal, Program.script, Program.output, Program.numCalls,
      Program.declaredAt, Program.sizes, Program.hostEnd, Shape, Outcome.state, Outcome.halted,
      ptx_1.script, ptx_1.output, ptx_1.xsFinal_eq, ptx_1.xs0_eq, eventsFrom, varsOf,
      GeneratedFrom, Call.out, Nat.forall_lt_succ]
    exact ⟨h1, h2, h3, h4⟩
  simp [c4, sizeof_int, assert, rd, sizeof, declArray, storeInt, loadInt, printf, commit,
    Call.out, beq_self_eq_true, List.nil_append, List.cons_append, List.map,
    Function.update_same]
  rw [invoke_eq]
  generalize h5 : d _ _ = r5
  by_cases c5 : r5.code = CUDA_SUCCESS
  swap
  · unfold Normal
    refine ⟨fun n => [r1, r2, r3, r4, r5].getD n default, 4, ?_⟩
    simp [c1, c2, c3, c4, c5, sizeof_int, assert, rd, sizeof, declArray, storeInt, loadInt,
      printf, commit, Call.out, beq_self_eq_true, List.nil_append, List.cons_append, List.map,
      Function.update_same, Normal, Program.script, Program.output, Program.numCalls,
      Program.declaredAt, Program.sizes, Program.hostEnd, Shape, Outcome.state, Outcome.halted,
      ptx_1.script, ptx_1.output, ptx_1.xsFinal_eq, ptx_1.xs0_eq, eventsFrom, varsOf,
      GeneratedFrom, Call.out, Nat.forall_lt_succ]
    exact ⟨h1, h2, h3, h4, h5⟩
  simp [c5, sizeof_int, assert, rd, sizeof, declArray, storeInt, loadInt, printf, commit,
    Call.out, beq_self_eq_true, List.nil_append, List.cons_append, List.map,
    Function.update_same]
  rw [invoke_eq]
  generalize h6 : d _ _ = r6
  by_cases c6 : r6.code = CUDA_SUCCESS
  swap
  · unfold Normal
    refine ⟨fun n => [r1, r2, r3, r4, r5, r6].getD n default, 5, ?_⟩
    simp [c1, c2, c3, c4, c5, c6, sizeof_int, assert, rd, sizeof, declArray, storeInt, loadInt,
      printf, commit, Call.out, beq_self_eq_true, List.nil_append, List.cons_append, List.map,
      Function.update_same, Normal, Program.script, Program.output, Program.numCalls,
      Program.declaredAt, Program.sizes, Program.hostEnd, Shape, Outcome.state, Outcome.halted,
      ptx_1.script, ptx_1.output, ptx_1.xsFinal_eq, ptx_1.xs0_eq, eventsFrom, varsOf,
      GeneratedFrom, Call.out, Nat.forall_lt_succ]
    exact ⟨h1, h2, h3, h4, h5, h6⟩
  simp [c6, sizeof_int, assert, rd, sizeof, declArray, storeInt, loadInt, printf, commit,
    Call.out, beq_self_eq_true, List.nil_append, List.cons_append, List.map,
    Function.update_same]
  rw [invoke_eq]
  generalize h7 : d _ _ = r7
  by_cases c7 : r7.code = CUDA_SUCCESS
  swap
  · unfold Normal
    refine ⟨fun n => [r1, r2, r3, r4, r5, r6, r7].getD n default, 6, ?_⟩
    simp [c1, c2, c3, c4, c5, c6, c7, sizeof_int, assert, rd, sizeof, declArray, storeInt,
      loadInt, printf, commit, Call.out, beq_self_eq_true, List.nil_append, List.cons_append,
      List.map, Function.update_same, Normal, Program.script, Program.output, Program.numCalls,
      Program.declaredAt, Program.sizes, Program.hostEnd, Shape, Outcome.state, Outcome.halted,
      ptx_1.script, ptx_1.output, ptx_1.xsFinal_eq, ptx_1.xs0_eq, eventsFrom, varsOf,
      GeneratedFrom, Call.out, Nat.forall_lt_succ]
    exact ⟨h1, h2, h3, h4, h5, h6, h7⟩
  simp [c7, sizeof_int, assert, rd, sizeof, declArray, storeInt, loadInt, printf, commit,
    Call.out, beq_self_eq_true, List.nil_append, List.cons_append, List.map,
    Function.update_same]
  rw [invoke_eq]
  generalize h8 : d _ _ = r8
  by_cases c8 : r8.code = CUDA_SUCCESS
  swap
  · unfold Normal
    refine ⟨fun n => [r1, r2, r3, r4, r5, r6, r7, r8].getD n default, 7, ?_⟩
    simp [c1, c2, c3, c4, c5, c6, c7, c8, sizeof_int, assert, rd, sizeof, declArray, storeInt,
      loadInt, printf, commit, Call.out, beq_self_eq_true, List.nil_append, List.cons_append,
      List.map, Function.update_same, Normal, Program.script, Program.output, Program.numCalls,
      Program.declaredAt, Program.sizes, Program.hostEnd, Shape, Outcome.state, Outcome.halted,
      ptx_1.script, ptx_1.output, ptx_1.xsFinal_eq, ptx_1.xs0_eq, eventsFrom, varsOf,
      GeneratedFrom, Call.out, Nat.forall_lt_succ]
    exact ⟨h1, h2, h3, h4, h5, h6, h7, h8⟩
  simp [c8, sizeof_int, assert, rd, sizeof, declArray, storeInt, loadInt, printf, commit,
    Call.out, beq_self_eq_true, List.nil_append, List.cons_append, List.map,
    Function.update_same]
  rw [invoke_eq]
  generalize h9 : d _ _ = r9
  by_cases c9 : r9.code = CUDA_SUCCESS
  swap
  · unfold Normal
    refine ⟨fun n => [r1, r2, r3, r4, r5, r6, r7, r8, r9].getD n default, 8, ?_⟩
    simp [c1, c2, c3, c4, c5, c6, c7, c8, c9, sizeof_int, assert, rd, sizeof, declArray,
      storeInt, loadInt, printf, commit, Call.out, beq_self_eq_true, List.nil_append,
      List.cons_append, List.map, Function.update_same, Normal, Program.script, Program.output,
      Program.numCalls, Program.declaredAt, Program.sizes, Program.hostEnd, Shape,
      Outcome.state, Outcome.halted, ptx_1.script, ptx_1.output, ptx_1.xsFinal_eq, ptx_1.xs0_eq,
      eventsFrom, varsOf, GeneratedFrom, Call.out, Nat.forall_lt_succ]
    exact ⟨h1, h2, h3, h4, h5, h6, h7, h8, h9⟩
  simp [c9, sizeof_int, assert, rd, sizeof, declArray, storeInt, loadInt, printf, commit,
    Call.out, beq_self_eq_true, List.nil_append, List.cons_append, List.map,
    Function.update_same]
  unfold Normal
  refine ⟨fun n => [r1, r2, r3, r4, r5, r6, r7, r8, r9].getD n default, 9, ?_⟩
  simp [c1, c2, c3, c4, c5, c6, c7, c8, c9, sizeof_int, assert, rd, sizeof, declArray, storeInt,
    loadInt, printf, commit, Call.out, beq_self_eq_true, List.nil_append, List.cons_append,
    List.map, Function.update_same, Normal, Program.script, Program.output, Program.numCalls,
    Program.declaredAt, Program.sizes, Program.hostEnd, Shape, Outcome.state, Outcome.halted,
    ptx_1.script, ptx_1.output, ptx_1.xsFinal_eq, ptx_1.xs0_eq, eventsFrom, varsOf,
    GeneratedFrom, Call.out, Nat.forall_lt_succ]
  exact ⟨h1, h2, h3, h4, h5, h6, h7, h8, h9⟩

set_option maxHeartbeats 4000000 in
/-- Every run of ptx_2 has the normal form of a checked straight-line program
over its script. -/
theorem run_normal_ptx_2 (d : Driver) (heap : HostVar → Nat → Nat) :
    Normal .ptx_2 d heap (ptx_2.main.run d (State.init heap)) := by
  simp only [ptx_2.main, M.run, bind_apply, pure_apply, cuInit, cuDeviceGet, cuCtxCreate_v2,
    cuModuleLoadData, cuModuleGetFunction, cuMemAlloc_v2, cuMemcpyHtoD_v2, cuLaunchKernel,
    cuMemcpyDtoH_v2, State.init]
  rw [invoke_eq]
  generalize h1 : d _ _ = r1
  by_cases c1 : r1.code = CUDA_SUCCESS
  swap
  · unfold Normal
    refine ⟨fun n => [r1].getD n default, 0, ?_⟩
    simp [c1, sizeof_int, sizeof_long, len_bytes, len_bytes_norm, assert, rd, sizeof, malloc,
      commit, Call.out, beq_self_eq_true, List.nil_append, List.cons_append, List.map,
      Function.update_same, Normal, Program.script, Program.output, Program.numCalls,
      Program.declaredAt, Program.sizes, Program.hostEnd, Shape, Outcome.state, Outcome.halted,
      ptx_2.script, eventsFrom, varsOf, GeneratedFrom, Call.out, Nat.forall_lt_succ]
    exact h1
  simp [c1, sizeof_int, sizeof_long, len_bytes, len_bytes_norm, assert, rd, sizeof, malloc,
    commit, Call.out, beq_self_eq_true, List.nil_append, List.cons_append, List.map,
    Function.update_same]
  rw [invoke_eq]
  generalize h2 : d _ _ = r2
  by_cases c2 : r2.code = CUDA_SUCCESS
  swap
  · unfold Normal
    refine ⟨fun n => [r1, r2].getD n default, 1, ?_⟩
    simp [c1, c2, sizeof_int, sizeof_long, len_bytes, len_bytes_norm, assert, rd, sizeof,
      malloc, commit, Call.out, beq_self_eq_true, List.nil_append, List.cons_append, List.map,
      Function.update_same, Normal, Program.script, Program.output, Program.numCalls,
      Program.declaredAt, Program.sizes, Program.hostEnd, Shape, Outcome.state, Outcome.halted,
      ptx_2.script, eventsFrom, varsOf, GeneratedFrom, Call.out, Nat.forall_lt_succ]
    exact ⟨h1, h2⟩
  simp [c2, sizeof_int, sizeof_long, len_bytes, len_bytes_norm, assert, rd, sizeof, malloc,
    commit, Call.out, beq_self_eq_true, List.nil_append, List.cons_append, List.map,
    Function.update_same]
  rw [invoke_eq]
  generalize h3 : d _ _ = r3
  by_cases c3 : r3.code = CUDA_SUCCESS
  swap
  · unfold Normal
    refine ⟨fun n => [r1, r2, r3].getD n default, 2, ?_⟩
    simp [c1, c2, c3, sizeof_int, sizeof_long, len_bytes, len_bytes_norm, assert, rd, sizeof,
      malloc, commit, Call.out, beq_self_eq_true, List.nil_append, List.cons_append, List.map,
      Function.update_same, Normal, Program.script, Program.output, Program.numCalls,
      Program.declaredAt, Program.sizes, Program.hostEnd, Shape, Outcome.state, Outcome.halted,
      ptx_2.script, eventsFrom, varsOf, GeneratedFrom, Call.out, Nat.forall_lt_succ]
    exact ⟨h1, h2, h3⟩
  simp [c3, sizeof_int, sizeof_long, len_bytes, len_bytes_norm, assert, rd, sizeof, malloc,
    commit, Call.out, beq_self_eq_true, List.nil_append, List.cons_append, List.map,
    Function.update_same]
  rw [invoke_eq]
  generalize h4 : d _ _ = r4
  by_cases c4 : r4.code = CUDA_SUCCESS
  swap
  · unfold Normal
    refine ⟨fun n => [r1, r2, r3, r4].getD n default, 3, ?_⟩
    simp [c1, c2, c3, c4, sizeof_int, sizeof_long, len_bytes, len_bytes_norm, assert, rd,
      sizeof, malloc, commit, Call.out, beq_self_eq_true, List.nil_append, List.cons_append,
      List.map, Function.update_same, Normal, Program.script, Program.output, Program.numCalls,
      Program.declaredAt, Program.sizes, Program.hostEnd, Shape, Outcome.state, Outcome.halted,
      ptx_2.script, eventsFrom, varsOf, GeneratedFrom, Call.out, Nat.forall_lt_succ]
    exact ⟨h1, h2, h3, h4⟩
  simp [c4, sizeof_int, sizeof_long, len_bytes, len_bytes_norm, assert, rd, sizeof, malloc,
    commit, Call.out, beq_self_eq_true, List.nil_append, List.cons_append, List.map,
    Function.update_same]
  rw [invoke_eq]
  generalize h5 : d _ _ = r5
  by_cases c5 : r5.code = CUDA_SUCCESS
  swap
  · unfold Normal
    refine ⟨fun n => [r1, r2, r3, r4, r5].getD n default, 4, ?_⟩
    simp [c1, c2, c3, c4, c5, sizeof_int, sizeof_long, len_bytes, len_bytes_norm, assert, rd,
      sizeof, malloc, commit, Call.out, beq_self_eq_true, List.nil_append, List.cons_append,
      List.map, Function.update_same, Normal, Program.script, Program.output, Program.numCalls,
      Program.declaredAt, Program.sizes, Program.hostEnd, Shape, Outcome.state, Outcome.halted,
      ptx_2.script, eventsFrom, varsOf, GeneratedFrom, Call.out, Nat.forall_lt_succ]
    exact ⟨h1, h2, h3, h4, h5⟩
  simp [c5, sizeof_int, sizeof_long, len_bytes, len_bytes_norm, assert, rd, sizeof, malloc,
    commit, Call.out, beq_self_eq_true, List.nil_append, List.cons_append, List.map,
    Function.update_same]
  rw [invoke_eq]
  generalize h6 : d _ _ = r6
  by_cases c6 : r6.code = CUDA_SUCCESS
  swap
  · unfold Normal
    refine ⟨fun n => [r1, r2, r3, r4, r5, r6].getD n default, 5, ?_⟩
    simp [c1, c2, c3, c4, c5, c6, sizeof_int, sizeof_long, len_bytes, len_bytes_norm, assert,
      rd, sizeof, malloc, commit, Call.out, beq_self_eq_true, List.nil_append, List.cons_append,
      List.map, Function.update_same, Normal, Program.script, Program.output, Program.numCalls,
      Program.declaredAt, Program.sizes, Program.hostEnd, Shape, Outcome.state, Outcome.halted,
      ptx_2.script, eventsFrom, varsOf, GeneratedFrom, Call.out, Nat.forall_lt_succ]
    exact ⟨h1, h2, h3, h4, h5, h6⟩
  simp [c6, sizeof_int, sizeof_long, len_bytes, len_bytes_norm, assert, rd, sizeof, malloc,
    commit, Call.out, beq_self_eq_true, List.nil_append, List.cons_append, List.map,
    Function.update_same]
  rw [invoke_eq]
  generalize h7 : d _ _ = r7
  by_cases c7 : r7.code = CUDA_SUCCESS
  swap
  · unfold Normal
    refine ⟨fun n => [r1, r2, r3, r4, r5, r6, r7].getD n default, 6, ?_⟩
    simp [c1, c2, c3, c4, c5, c6, c7, sizeof_int, sizeof_long, len_bytes, len_bytes_norm,
      assert, rd, sizeof, malloc, commit, Call.out, beq_self_eq_true, List.nil_append,
      List.cons_append, List.map, Function.update_same, Normal, Program.script, Program.output,
      Program.numCalls, Program.declaredAt, Program.sizes, Program.hostEnd, Shape,
      Outcome.state, Outcome.halted, ptx_2.script, eventsFrom, varsOf, GeneratedFrom, Call.out,
      Nat.forall_lt_succ]
    exact ⟨h1, h2, h3, h4, h5, h6, h7⟩
  simp [c7, sizeof_int, sizeof_long, len_bytes, len_bytes_norm, assert, rd, sizeof, malloc,
    commit, Call.out, beq_self_eq_true, List.nil_append, List.cons_append, List.map,
    Function.update_same]
  rw [invoke_eq]
  generalize h8 : d _ _ = r8
  by_cases c8 : r8.code = CUDA_SUCCESS
  swap
  · unfold Normal
    refine ⟨fun n => [r1, r2, r3, r4, r5, r6, r7, r8].getD n default, 7, ?_⟩
    simp [c1, c2, c3, c4, c5, c6, c7, c8, sizeof_int, sizeof_long, len_bytes, len_bytes_norm,
      assert, rd, sizeof, malloc, commit, Call.out, beq_self_eq_true, List.nil_append,
      List.cons_append, List.map, Function.update_same, Normal, Program.script, Program.output,
      Program.numCalls, Program.declaredAt, Program.sizes, Program.hostEnd, Shape,
      Outcome.state, Outcome.halted, ptx_2.script, eventsFrom, varsOf, GeneratedFrom, Call.out,
      Nat.forall_lt_succ]
    exact ⟨h1, h2, h3, h4, h5, h6, h7, h8⟩
  simp [c8, sizeof_int, sizeof_long, len_bytes, len_bytes_norm, assert, rd, sizeof, malloc,
    commit, Call.out, beq_self_eq_true, List.nil_append, List.cons_append, List.map,
    Function.update_same]
  rw [invoke_eq]
  generalize h9 : d _ _ = r9
  by_cases c9 : r9.code = CUDA_SUCCESS
  swap
  · unfold Normal
    refine ⟨fun n => [r1, r2, r3, r4, r5, r6, r7, r8, r9].getD n default, 8, ?_⟩
    simp [c1, c2, c3, c4, c5, c6, c7, c8, c9, sizeof_int, sizeof_long, len_bytes,
      len_bytes_norm, assert, rd, sizeof, malloc, commit, Call.out, beq_self_eq_true,
      List.nil_append, List.cons_append, List.map, Function.update_same, Normal, Program.script,
      Program.output, Program.numCalls, Program.declaredAt, Program.sizes, Program.hostEnd,
      Shape, Outcome.state, Outcome.halted, ptx_2.script, eventsFrom, varsOf, GeneratedFrom,
      Call.out, Nat.forall_lt_succ]
    exact ⟨h1, h2, h3, h4, h5, h6, h7, h8, h9⟩
  simp [c9, sizeof_int, sizeof_long, len_bytes, len_bytes_norm, assert, rd, sizeof, malloc,
    commit, Call.out, beq_self_eq_true, List.nil_append, List.cons_append, List.map,
    Function.update_same]
  rw [invoke_eq]
  generalize h10 : d _ _ = r10
  by_cases c10 : r10.code = CUDA_SUCCESS
  swap
  · unfold Normal
    refine ⟨fun n => [r1, r2, r3, r4, r5, r6, r7, r8, r9, r10].getD n default, 9, ?_⟩
    simp [c1, c2, c3, c4, c5, c6, c7, c8, c9, c10, sizeof_int, sizeof_long, len_bytes,
      len_bytes_norm, assert, rd, sizeof, malloc, commit, Call.out, beq_self_eq_true,
      List.nil_append, List.cons_append, List.map, Function.update_same, Normal, Program.script,
      Program.output, Program.numCalls, Program.declaredAt, Program.sizes, Program.hostEnd,
      Shape, Outcome.state, Outcome.halted, ptx_2.script, eventsFrom, varsOf, GeneratedFrom,
      Call.out, Nat.forall_lt_succ]
    exact ⟨h1, h2, h3, h4, h5, h6, h7, h8, h9, h10⟩
  simp [c10, sizeof_int, sizeof_long, len_bytes, len_bytes_norm, assert, rd, sizeof, malloc,
    commit, Call.out, beq_self_eq_true, List.nil_append, List.cons_append, List.map,
    Function.update_same]
  rw [invoke_eq]
  generalize h11 : d _ _ = r11
  by_cases c11 : r11.code = CUDA_SUCCESS
  swap
  · unfold Normal
    refine ⟨fun n => [r1, r2, r3, r4, r5, r6, r7, r8, r9, r10, r11].getD n default, 10, ?_⟩
    simp [c1, c2, c3, c4, c5, c6, c7, c8, c9, c10, c11, sizeof_int, sizeof_long, len_bytes,
      len_bytes_norm, assert, rd, sizeof, malloc, commit, Call.out, beq_self_eq_true,
      List.nil_append, List.cons_append, List.map, Function.update_same, Normal, Program.script,
      Program.output, Program.numCalls, Program.declaredAt, Program.sizes, Program.hostEnd,
      Shape, Outcome.state, Outcome.halted, ptx_2.script, eventsFrom, varsOf, GeneratedFrom,
      Call.out, Nat.forall_lt_succ]
    exact ⟨h1, h2, h3, h4, h5, h6, h7, h8, h9, h10, h11⟩
  simp [c11, sizeof_int, sizeof_long, len_bytes, len_bytes_norm, assert, rd, sizeof, malloc,
    commit, Call.out, beq_self_eq_true, List.nil_append, List.cons_append, List.map,
    Function.update_same]
  rw [invoke_eq]
  generalize h12 : d _ _ = r12
  by_cases c12 : r12.code = CUDA_SUCCESS
  swap
  · unfold Normal
    refine ⟨fun n => [r1, r2, r3, r4, r5, r6, r7, r8, r9, r10, r11, r12].getD n default, 11, ?_⟩
    simp [c1, c2, c3, c4, c5, c6, c7, c8, c9, c10, c11, c12, sizeof_int, sizeof_long, len_bytes,
      len_bytes_norm, assert, rd, sizeof, malloc, commit, Call.out, beq_self_eq_true,
      List.nil_append, List.cons_append, List.map, Function.update_same, Normal, Program.script,
      Program.output, Program.numCalls, Program.declaredAt, Program.sizes, Program.hostEnd,
      Shape, Outcome.state, Outcome.halted, ptx_2.script, eventsFrom, varsOf, GeneratedFrom,
      Call.out, Nat.forall_lt_succ]
    exact ⟨h1, h2, h3, h4, h5, h6, h7, h8, h9, h10, h11, h12⟩
  simp [c12, sizeof_int, sizeof_long, len_bytes, len_bytes_norm, assert, rd, sizeof, malloc,
    commit, Call.out, beq_self_eq_true, List.nil_append, List.cons_append, List.map,
    Function.update_same]
  rw [invoke_eq]
  generalize h13 : d _ _ = r13
  by_cases c13 : r13.code = CUDA_SUCCESS
  swap
  · unfold Normal
    refine ⟨fun n => [r1, r2, r3, r4, r5, r6, r7, r8, r9, r10, r11, r12, r13].getD n default,
      12, ?_⟩
    simp [c1, c2, c3, c4, c5, c6, c7, c8, c9, c10, c11, c12, c13, sizeof_int, sizeof_long,
      len_bytes, len_bytes_norm, assert, rd, sizeof, malloc, commit, Call.out, beq_self_eq_true,
      List.nil_append, List.cons_append, List.map, Function.update_same, Normal, Program.script,
      Program.output, Program.numCalls, Program.declaredAt, Program.sizes, Program.hostEnd,
      Shape, Outcome.state, Outcome.halted, ptx_2.script, eventsFrom, varsOf, GeneratedFrom,
      Call.out, Nat.forall_lt_succ]
    exact ⟨h1, h2, h3, h4, h5, h6, h7, h8, h9, h10, h11, h12, h13⟩
  simp [c13, sizeof_int, sizeof_long, len_bytes, len_bytes_norm, assert, rd, sizeof, malloc,
    commit, Call.out, beq_self_eq_true, List.nil_append, List.cons_append, List.map,
    Function.update_same]
  rw [invoke_eq]
  generalize h14 : d _ _ = r14
  by_cases c14 : r14.code = CUDA_SUCCESS
  swap
  · unfold Normal
    refine ⟨fun n => [r1, r2, r3, r4, r5, r6, r7, r8, r9, r10, r11, r12, r13, r14].getD n
      default, 13, ?_⟩
    simp [c1, c2, c3, c4, c5, c6, c7, c8, c9, c10, c11, c12, c13, c14, sizeof_int, sizeof_long,
      len_bytes, len_bytes_norm, assert, rd, sizeof, malloc, commit, Call.out, beq_self_eq_true,
      List.nil_append, List.cons_append, List.map, Function.update_same, Normal, Program.script,
      Program.output, Program.numCalls, Program.declaredAt, Program.sizes, Program.hostEnd,
      Shape, Outcome.state, Outcome.halted, ptx_2.script, eventsFrom, varsOf, GeneratedFrom,
      Call.out, Nat.forall_lt_succ]
    exact ⟨h1, h2, h3, h4, h5, h6, h7, h8, h9, h10, h11, h12, h13, h14⟩
  simp [c14, sizeof_int, sizeof_long, len_bytes, len_bytes_norm, assert, rd, sizeof, malloc,
    commit, Call.out, beq_self_eq_true, List.nil_append, List.cons_append, List.map,
    Function.update_same]
  rw [invoke_eq]
  generalize h15 : d _ _ = r15
  by_cases c15 : r15.code = CUDA_SUCCESS
  swap
  · unfold Normal
    refine ⟨fun n => [r1, r2, r3, r4, r5, r6, r7, r8, r9, r10, r11, r12, r13, r14, r15].getD n
      default, 14, ?_⟩
    simp [c1, c2, c3, c4, c5, c6, c7, c8, c9, c10, c11, c12, c13, c14, c15, sizeof_int,
      sizeof_long, len_bytes, len_bytes_norm, assert, rd, sizeof, malloc, commit, Call.out,
      beq_self_eq_true, List.nil_append, List.cons_append, List.map, Function.update_same,
      Normal, Program.script, Program.output, Program.numCalls, Program.declaredAt,
      Program.sizes, Program.hostEnd, Shape, Outcome.state, Outcome.halted, ptx_2.script,
      eventsFrom, varsOf, GeneratedFrom, Call.out, Nat.forall_lt_succ]
    exact ⟨h1, h2, h3, h4, h5, h6, h7, h8, h9, h10, h11, h12, h13, h14, h15⟩
  simp [c15, sizeof_int, sizeof_long, len_bytes, len_bytes_norm, assert, rd, sizeof, malloc,
    commit, Call.out, beq_self_eq_true, List.nil_append, List.cons_append, List.map,
    Function.update_same]
  rw [ptx_2.printLoop_eq _ _ (by simp) (by simp) (by simp)]
  unfold Normal
  refine ⟨fun n => [r1, r2, r3, r4, r5, r6, r7, r8, r9, r10, r11, r12, r13, r14, r15].getD n
    default, 15, ?_⟩
  simp [c1, c2, c3, c4, c5, c6, c7, c8, c9, c10, c11, c12, c13, c14, c15, ptx_2.output,
    ptx_2.copied_eq, range16, sizeof_int, sizeof_long, len_bytes, len_bytes_norm, assert, rd,
    sizeof, malloc, commit, Call.out, beq_self_eq_true, List.nil_append, List.cons_append,
    List.map, Function.update_same, Normal, Program.script, Program.output, Program.numCalls,
    Program.declaredAt, Program.sizes, Program.hostEnd, Shape, Outcome.state, Outcome.halted,
    ptx_2.script, eventsFrom, varsOf, GeneratedFrom, Call.out, Nat.forall_lt_succ]
  exact ⟨h1, h2, h3, h4, h5, h6, h7, h8, h9, h10, h11, h12, h13, h14, h15⟩

/-- Every run of either program is in normal form. -/
theorem run_normal (p : Program) (d : Driver) (heap : HostVar → Nat → Nat) :
    Normal p d heap (p.run d heap) := by
  cases p
  · exact run_normal_ptx_1 d heap
  · exact run_normal_ptx_2 d heap
/-! ## Logs of normal-form runs -/

theorem callsOf_append (a b : List Event) : callsOf (a ++ b) = callsOf a ++ callsOf b := by
  induction a with
  | nil => rfl
  | cons e es ih => cases e <;> simp [callsOf, ih]

theorem printsOf_append (a b : List Event) :
    printsOf (a ++ b) = printsOf a ++ printsOf b := by
  induction a with
  | nil => rfl
  | cons e es ih => cases e <;> simp [printsOf, ih]

theorem printsOf_eventsFrom (ρ : Nat → Response) (i : Nat) (cs : List Call) :
    printsOf (eventsFrom ρ i cs) = [] := by
  induction cs generalizing i with
  | nil => rfl
  | cons c cs ih => simp [eventsFrom, printsOf, ih]

theorem length_callsOf_eventsFrom (ρ : Nat → Response) (i : Nat) (cs : List Call) :
    (callsOf (eventsFrom ρ i cs)).length = cs.length := by
  induction cs generalizing i with
  | nil => rfl
  | cons c cs ih => simp [eventsFrom, callsOf, ih]

theorem getElem?_callsOf_eventsFrom (ρ : Nat → Response) (i : Nat) (cs : List Call) (j : Nat) :
    (callsOf (eventsFrom ρ i cs))[j]? = (cs[j]?).map (fun c => (c, ρ (i + j))) := by
  induction cs generalizing i j with
  | nil => simp [eventsFrom, callsOf]
  | cons c cs ih =>
    cases j with
    | zero => simp [eventsFrom, callsOf]
    | succ j =>
      simp only [eventsFrom, callsOf, List.getElem?_cons_succ, ih]
      congr 1
      funext c
      congr 2
      omega

theorem length_script (p : Program) (heap : HostVar → Nat → Nat) (ρ : Nat → Response) :
    (p.script heap ρ).length = p.numCalls := by
  cases p <;> rfl

theorem callsOf_output (p : Program) (heap : HostVar → Nat → Nat) (ρ : Nat → Response) :
    callsOf (p.output heap ρ) = [] := by
  cases p <;> simp [Program.output, ptx_1.output, ptx_2.output, callsOf, range16]

/-- In a normal-form run the calls are the first `k + 1` calls of the script,
answered by `ρ`. -/
theorem Shape.calls_eq {d : Driver} {o : Outcome Unit} {cs : List Call} {ps : List Event}
    {ρ : Nat → Response} {k : Nat} (h : Shape d o cs ps ρ k) (hps : callsOf ps = []) :
    o.calls = callsOf (eventsFrom ρ 0 (cs.take (k + 1))) := by
  obtain ⟨_, _, _, hlog, _⟩ := h
  unfold Outcome.calls
  rw [hlog, callsOf_append]
  split <;> simp [hps, callsOf]

/-- In a normal-form run, call `j` was answered by `ρ j`, and `j ≤ k`. -/
theorem Shape.call_at {d : Driver} {o : Outcome Unit} {cs : List Call} {ps : List Event}
    {ρ : Nat → Response} {k : Nat} (h : Shape d o cs ps ρ k) (hps : callsOf ps = [])
    {j : Nat} {e : Call × Response} (he : o.calls[j]? = some e) :
    j ≤ k ∧ j < cs.length ∧ cs[j]? = some e.1 ∧ e.2 = ρ j := by
  rw [h.calls_eq hps, getElem?_callsOf_eventsFrom] at he
  rcases hj : (List.take (k + 1) cs)[j]? with _ | c
  · simp [hj] at he
  · rw [hj] at he
    simp only [Option.map_some', Option.some.injEq, Nat.zero_add] at he
    have hlt := (List.getElem?_eq_some_iff.mp hj).1
    simp only [List.length_take] at hlt
    rw [List.getElem?_take] at hj
    split at hj
    · subst he
      exact ⟨by omega, by omega, hj, rfl⟩
    · simp at hj

/-- A failing call of a normal-form run is call `k`, and the run stopped
there. -/
theorem Shape.failure_at {d : Driver} {o : Outcome Unit} {cs : List Call} {ps : List Event}
    {ρ : Nat → Response} {k : Nat} (h : Shape d o cs ps ρ k) (hps : callsOf ps = [])
    {j : Nat} {e : Call × Response} (he : o.calls[j]? = some e)
    (hf : e.2.code ≠ CUDA_SUCCESS) :
    j = k ∧ k < cs.length := by
  obtain ⟨hjk, hjl, _, hρ⟩ := h.call_at hps he
  obtain ⟨_, hsucc, _⟩ := h
  rcases Nat.lt_or_ge j k with hlt | hge
  · exact absurd (hρ ▸ hsucc j hlt) hf
  · have : j = k := by omega
    exact ⟨this, this ▸ hjl⟩

/-- C1.  Fail-fast on every driver call, for both programs and every driver
oracle: if call number `k` (counted from 0) of the run returns a code other
than `CUDA_SUCCESS`, then the process was halted by the assert, it issued
exactly `k + 1` driver calls (the failing one is the last), it printed
nothing, and every earlier call had returned `CUDA_SUCCESS` (so the failing
call is the first one).  No hypothesis singles out which call fails: every
result code is checked. -/
theorem fail_fast (p : Program) (d : Driver) (heap : HostVar → Nat → Nat) (k : Nat)
    (e : Call × Response) (he : (p.run d heap).calls[k]? = some e)
    (hfail : e.2.code ≠ CUDA_SUCCESS) :
    (p.run d heap).halted = some Halt.assertFailed ∧
    (p.run d heap).calls.length = k + 1 ∧
    (p.run d heap).prints = [] ∧
    ∀ j e', j < k → (p.run d heap).calls[j]? = some e' → e'.2.code = CUDA_SUCCESS := by
  obtain ⟨ρ, n, hshape, -, -⟩ := run_normal p d heap
  have hps := callsOf_output p heap ρ
  obtain ⟨hk, hlt⟩ := hshape.failure_at hps he hfail
  subst hk
  have hcalls := hshape.calls_eq hps
  have hs := hshape
  obtain ⟨_, hsucc, _, hlog, hhalt, _⟩ := hshape
  have hne : k ≠ (p.script heap ρ).length := Nat.ne_of_lt hlt
  refine ⟨by simpa [hne] using hhalt, ?_, ?_, ?_⟩
  · rw [hcalls, length_callsOf_eventsFrom, List.length_take]
    omega
  · unfold Outcome.prints
    rw [hlog, printsOf_append, printsOf_eventsFrom]
    simp [hne, printsOf]
  · intro j e' hj he'
    obtain ⟨_, _, _, hρ⟩ := hs.call_at hps he'
    rw [hρ]
    exact hsucc j hj

theorem fail_fast_witness :
    (Program.ptx_1.run (failAt 8) zeroHeap).calls[8]? =
        some (Call.cuMemcpyDtoH_v2 .xs ⟨.d_x, some 7⟩ 128, ⟨1, 7, fun _ => 0⟩) ∧
    (1 : CUresult) ≠ CUDA_SUCCESS ∧
    (Program.ptx_1.run (failAt 8) zeroHeap).halted = some Halt.assertFailed ∧
    (Program.ptx_1.run (failAt 8) zeroHeap).calls.length = 9 ∧
    (Program.ptx_1.run (failAt 8) zeroHeap).prints = [] :=
  have h := fail_fast .ptx_1 (failAt 8) zeroHeap 8
    (Call.cuMemcpyDtoH_v2 .xs ⟨.d_x, some 7⟩ 128, ⟨1, 7, fun _ => 0⟩) (by rfl) (by decide)
  ⟨by rfl, by decide, h.1, h.2.1, h.2.2.1⟩
theorem map_fst_callsOf_eventsFrom (ρ : Nat → Response) (i : Nat) (cs : List Call) :
    (callsOf (eventsFrom ρ i cs)).map Prod.fst = cs := by
  induction cs generalizing i with
  | nil => rfl
  | cons c cs ih => simp [eventsFrom, callsOf, ih]

theorem eventsFrom_eq_map (ρ : Nat → Response) (i : Nat) (cs : List Call) :
    eventsFrom ρ i cs = (callsOf (eventsFrom ρ i cs)).map (fun e => Event.call e.1 e.2) := by
  induction cs generalizing i with
  | nil => rfl
  | cons c cs ih =>
    simp only [eventsFrom, callsOf, List.map_cons]
    rw [← ih]

theorem output_eq_map (p : Program) (heap : HostVar → Nat → Nat) (ρ : Nat → Response) :
    p.output heap ρ = (printsOf (p.output heap ρ)).map (fun l => Event.print l.1 l.2) ∧
      printsOf (p.output heap ρ) ≠ [] := by
  cases p <;> simp [Program.output, ptx_1.output, ptx_2.output, printsOf, range16]

/-- Generated responses are answers of the driver. -/
theorem GeneratedFrom.answer {d : Driver} {h log : List Event} (hg : GeneratedFrom d h log)
    {e : Call × Response} (he : e ∈ callsOf log) : ∃ h', e.2 = d h' e.1 := by
  induction log generalizing h with
  | nil => simp [callsOf] at he
  | cons x xs ih =>
    cases x with
    | call c r =>
      simp only [callsOf, List.mem_cons] at he
      obtain ⟨hr, hrest⟩ := hg
      rcases he with rfl | he
      · exact ⟨h, hr.symm⟩
      · exact ih hrest he
    | print fmt args =>
      exact ih hg (by simpa [callsOf] using he)

/-- The driver `okDriver` makes every run an all-success run. -/
theorem allSuccess_okDriver (p : Program) (heap : HostVar → Nat → Nat) :
    AllSuccess (p.run okDriver heap) := by
  obtain ⟨ρ, k, hshape, -, -⟩ := run_normal p okDriver heap
  intro e he
  obtain ⟨h', hr⟩ := hshape.2.2.2.2.2.2.answer he
  rw [hr]
  rfl

/-- The normal form of an all-success run: every call of the script was
issued and succeeded, and the output was printed. -/
theorem success_run (p : Program) (d : Driver) (heap : HostVar → Nat → Nat)
    (h : AllSuccess (p.run d heap)) :
    ∃ ρ, (∀ j < p.numCalls, (ρ j).code = CUDA_SUCCESS) ∧
      (p.run d heap).state.log = eventsFrom ρ 0 (p.script heap ρ) ++ p.output heap ρ ∧
      (p.run d heap).halted = none ∧
      (p.run d heap).state.vars = varsOf (p.run d heap).state.log ∧
      GeneratedFrom d [] (p.run d heap).state.log ∧
      (p.run d heap).state.hostSize = p.sizes ∧
      (p.run d heap).state.host = p.hostEnd heap ρ := by
  obtain ⟨ρ, k, hshape, hsz, hhost⟩ := run_normal p d heap
  have hps := callsOf_output p heap ρ
  have hlen := length_script p heap ρ
  have hk : k = p.numCalls := by
    by_contra hne
    have hle : k ≤ (p.script heap ρ).length := hshape.1
    have hlt : k < (p.script heap ρ).length := by omega
    obtain ⟨c, hc⟩ : ∃ c, (p.script heap ρ)[k]? = some c :=
      ⟨_, List.getElem?_eq_getElem hlt⟩
    have hin : (callsOf (eventsFrom ρ 0 (List.take (k + 1) (p.script heap ρ))))[k]? =
        some (c, ρ k) := by
      rw [getElem?_callsOf_eventsFrom, List.getElem?_take]
      simp [hc]
    rw [← hshape.calls_eq hps] at hin
    exact hshape.2.2.1 hlt (h _ (List.getElem?_mem hin))
  obtain ⟨_, hsucc, _, hlog, hhalt, hvars, hgen⟩ := hshape
  subst hk
  refine ⟨ρ, hsucc, ?_, by simpa [hlen] using hhalt, hvars, hgen, ?_, hhost rfl⟩
  · rw [hlog, if_pos hlen.symm, List.take_of_length_le (by omega)]
  · apply hsz
    cases p <;> decide

theorem names_script (p : Program) (heap : HostVar → Nat → Nat) (ρ : Nat → Response) :
    (p.script heap ρ).map Call.name = p.stages := by
  cases p <;> rfl

theorem refs_script_nodup (p : Program) (heap : HostVar → Nat → Nat) (ρ : Nat → Response) :
    ((p.script heap ρ).map (fun c => (c.name, c.refs))).Nodup := by
  cases p <;>
    simp [Program.script, ptx_1.script, ptx_2.script, Call.name, Call.refs, Call.out,
      Call.inputs, Call.hostVar]

/-- The entry points called in an all-success run. -/
theorem stage_order_names (p : Program) (d : Driver) (heap : HostVar → Nat → Nat)
    (h : AllSuccess (p.run d heap)) :
    (p.run d heap).calls.map (fun e => e.1.name) = p.stages := by
  obtain ⟨ρ, -, hlog, -⟩ := success_run p d heap h
  unfold Outcome.calls
  rw [hlog, callsOf_append, callsOf_output, List.append_nil, ← names_script p heap ρ]
  conv_rhs => rw [← map_fst_callsOf_eventsFrom ρ 0 (p.script heap ρ)]
  rw [List.map_map]
  rfl

/-- C2.  Stage order on the all-success run.  When every driver call of the
run returns `CUDA_SUCCESS`, the run reaches the end of `main`, its driver
calls are exactly the calls of the program's script in order (answered by some
responses `ρ`): `cuInit`, `cuDeviceGet`, `cuCtxCreate_v2`, the module load,
`cuModuleGetFunction`, then the allocations, then the host-to-device copies,
then one `cuLaunchKernel`, then the device-to-host copies; the log consists of
these calls followed by the printed lines; ptx-1 issues 9 calls and loads the
module with `cuModuleLoad` from `"b.ptx"`, ptx_2 issues 15 calls and loads it
with `cuModuleLoadData` from `buf`; no call (entry point together with the
variables it refers to) occurs twice. -/
theorem stage_order (p : Program) (d : Driver) (heap : HostVar → Nat → Nat)
    (h : AllSuccess (p.run d heap)) :
    (p.run d heap).halted = none ∧
    (∃ ρ, (p.run d heap).calls = answered ρ (p.script heap ρ)) ∧
    (p.run d heap).calls.map (fun e => e.1.name) = p.stages ∧
    (p.run d heap).calls.length = p.numCalls ∧
    ((p.run d heap).calls[3]?).map Prod.fst = some p.moduleLoad ∧
    (p.run d heap).state.log =
      (p.run d heap).calls.map (fun e => Event.call e.1 e.2) ++
        (p.run d heap).prints.map (fun l => Event.print l.1 l.2) ∧
    (p.run d heap).prints ≠ [] ∧
    ((p.run d heap).calls.map (fun e => (e.1.name, e.1.refs))).Nodup := by
  obtain ⟨ρ, -, hlog, hhalt, -⟩ := success_run p d heap h
  have hcalls : (p.run d heap).calls = answered ρ (p.script heap ρ) := by
    unfold Outcome.calls answered
    rw [hlog, callsOf_append, callsOf_output, List.append_nil]
  have hprints : (p.run d heap).prints = printsOf (p.output heap ρ) := by
    unfold Outcome.prints
    rw [hlog, printsOf_append, printsOf_eventsFrom, List.nil_append]
  have hfst : (p.run d heap).calls.map Prod.fst = p.script heap ρ := by
    rw [hcalls]
    exact map_fst_callsOf_eventsFrom ρ 0 _
  have hmap : ∀ {β : Type} (f : Call → β),
      (p.run d heap).calls.map (fun e => f e.1) = (p.script heap ρ).map f := by
    intro β f
    rw [← hfst, List.map_map]
    rfl
  refine ⟨hhalt, ⟨ρ, hcalls⟩, ?_, ?_, ?_, ?_, ?_, ?_⟩
  · rw [hmap Call.name, names_script]
  · rw [hcalls]
    unfold answered
    rw [length_callsOf_eventsFrom, length_script]
  · rw [← List.getElem?_map, hfst]
    cases p <;> rfl
  · rw [hprints, hcalls]
    unfold answered
    rw [← eventsFrom_eq_map, ← (output_eq_map p heap ρ).1]
    exact hlog
  · rw [hprints]
    exact (output_eq_map p heap ρ).2
  · rw [hmap (fun c => (c.name, c.refs))]
    exact refs_script_nodup p heap ρ

theorem stage_order_witness :
    AllSuccess (Program.ptx_2.run okDriver zeroHeap) ∧
    (Program.ptx_2.run okDriver zeroHeap).calls.length = 15 :=
  ⟨allSuccess_okDriver _ _,
    (stage_order .ptx_2 okDriver zeroHeap (allSuccess_okDriver _ _)).2.2.2.1⟩
theorem handlesOkFrom_take (hist log : List Event) (n : Nat)
    (h : handlesOkFrom hist log = true) : handlesOkFrom hist (log.take n) = true := by
  induction log generalizing hist n with
  | nil => simp [handlesOkFrom]
  | cons e es ih =>
    cases n with
    | zero => simp [handlesOkFrom]
    | succ n =>
      cases e with
      | call c r =>
        simp only [handlesOkFrom, Bool.and_eq_true, List.take_succ_cons] at h ⊢
        exact ⟨h.1, ih _ n h.2⟩
      | print fmt args =>
        simp only [handlesOkFrom, List.take_succ_cons] at h ⊢
        exact ih _ n h

theorem handlesOkFrom_prints (hist ps : List Event) (hps : callsOf ps = []) :
    handlesOkFrom hist ps = true := by
  induction ps generalizing hist with
  | nil => rfl
  | cons e es ih =>
    cases e with
    | call c r => simp [callsOf] at hps
    | print fmt args =>
      simp only [handlesOkFrom]
      exact ih _ (by simpa [callsOf] using hps)

theorem handlesOkFrom_append_prints (hist a ps : List Event) (hps : callsOf ps = []) :
    handlesOkFrom hist (a ++ ps) = handlesOkFrom hist a := by
  induction a generalizing hist with
  | nil => simpa [handlesOkFrom] using handlesOkFrom_prints hist ps hps
  | cons e es ih =>
    rw [List.cons_append]
    cases e with
    | call c r => simp only [handlesOkFrom, ih]
    | print fmt args => simp only [handlesOkFrom, ih]

theorem handlesOkFrom_inputs (hist log : List Event) (h : handlesOkFrom hist log = true)
    {e : Call × Response} (he : e ∈ callsOf log) {a : HArg} (ha : a ∈ e.1.inputs) :
    a.val ≠ none := by
  induction log generalizing hist with
  | nil => simp [callsOf] at he
  | cons x xs ih =>
    cases x with
    | call c r =>
      simp only [handlesOkFrom, Bool.and_eq_true, List.all_eq_true] at h
      simp only [callsOf, List.mem_cons] at he
      rcases he with rfl | he
      · have := h.1 a ha
        simp only [producedBy, List.any_eq_true] at this
        obtain ⟨x, -, hx⟩ := this
        cases x with
        | call c' r' =>
          simp only [Bool.and_eq_true, decide_eq_true_eq] at hx
          rw [hx.2]
          simp
        | print fmt args => simp at hx
      · exact ih _ h.2 he
    | print fmt args =>
      exact ih _ (by simpa [handlesOkFrom] using h) (by simpa [callsOf] using he)

theorem handlesOk_script_ptx_1 (ρ : Nat → Response) (k : Nat) (hk : k ≤ 9)
    (hs : ∀ j < k, (ρ j).code = CUDA_SUCCESS) :
    handlesOkFrom [] (eventsFrom ρ 0 ((ptx_1.script ρ).take (k + 1))) = true := by
  interval_cases k <;> simp only [Nat.forall_lt_succ, Nat.not_lt_zero, false_implies,
      implies_true, true_and] at hs <;>
    simp [ptx_1.script, eventsFrom, handlesOkFrom, producedBy, Call.inputs, Call.out, hs]

theorem handlesOk_script_ptx_2 (heap : HostVar → Nat → Nat) (ρ : Nat → Response) (k : Nat)
    (hk : k ≤ 15) (hs : ∀ j < k, (ρ j).code = CUDA_SUCCESS) :
    handlesOkFrom [] (eventsFrom ρ 0 ((ptx_2.script heap ρ).take (k + 1))) = true := by
  interval_cases k <;> simp only [Nat.forall_lt_succ, Nat.not_lt_zero, false_implies,
      implies_true, true_and] at hs <;>
    simp [ptx_2.script, eventsFrom, handlesOkFrom, producedBy, Call.inputs, Call.out, hs]

theorem handlesOk_run (p : Program) (d : Driver) (heap : HostVar → Nat → Nat) :
    handlesOk (p.run d heap).state.log = true := by
  obtain ⟨ρ, k, hshape, -, -⟩ := run_normal p d heap
  obtain ⟨hk, hsucc, -, hlog, -⟩ := hshape
  unfold handlesOk
  rw [hlog, handlesOkFrom_append_prints]
  · cases p
    · exact handlesOk_script_ptx_1 ρ k hk hsucc
    · exact handlesOk_script_ptx_2 heap ρ k hk hsucc
  · split
    · exact callsOf_output p heap ρ
    · rfl

/-- C3.  Handle-dependency invariant, for both programs, every driver oracle
and every prefix of the log of the run (the first `n` events): each handle
passed as an input argument to a driver call (the device to
`cuCtxCreate_v2`, the module to `cuModuleGetFunction`, the function and the
device pointers to `cuLaunchKernel`, a device pointer to a copy) carries the
value that an earlier call of the same log, which returned `CUDA_SUCCESS`,
wrote into the variable the argument was read from; in particular no call
receives a handle still in its initial state. -/
theorem handle_dependency (p : Program) (d : Driver) (heap : HostVar → Nat → Nat) (n : Nat) :
    handlesOk ((p.run d heap).state.log.take n) = true ∧
    ∀ e ∈ callsOf ((p.run d heap).state.log.take n), ∀ a ∈ e.1.inputs, a.val ≠ none := by
  have h := handlesOkFrom_take [] _ n (handlesOk_run p d heap)
  exact ⟨h, fun e he a ha => handlesOkFrom_inputs [] _ h he ha⟩
theorem transfer_script (p : Program) (heap : HostVar → Nat → Nat) (ρ : Nat → Response)
    (j : Nat) (c : Call) (hc : (p.script heap ρ)[j]? = some c)
    (t : Option HostVar × Var × Nat) (ht : c.transfer = some t) :
    p.declaredAt ≤ j ∧ t.2.2 = p.bufferBytes ∧
      ∃ hv, (hv, t.2.1) ∈ p.buffers ∧ (t.1 = none ∨ t.1 = some hv) ∧ p.sizes hv = t.2.2 := by
  have hj : j < p.numCalls := by
    rw [← length_script p heap ρ]
    exact (List.getElem?_eq_some_iff.mp hc).1
  cases p
  · simp only [Program.numCalls] at hj
    interval_cases j <;>
      simp only [Program.script, ptx_1.script, List.getElem?_cons_zero,
        List.getElem?_cons_succ, Option.some.injEq] at hc <;>
      subst hc <;> simp only [Call.transfer, Option.some.injEq] at ht <;>
      first
        | exact absurd ht (by simp)
        | (subst ht
           simp [Program.declaredAt, Program.bufferBytes, Program.elements, Program.elemSize,
             Program.buffers, Program.sizes, sizeof_int, sizeof_long])
  · simp only [Program.numCalls] at hj
    interval_cases j <;>
      simp only [Program.script, ptx_2.script, List.getElem?_cons_zero,
        List.getElem?_cons_succ, Option.some.injEq] at hc <;>
      subst hc <;> simp only [Call.transfer, Option.some.injEq] at ht <;>
      first
        | exact absurd ht (by simp)
        | (subst ht
           simp [Program.declaredAt, Program.bufferBytes, Program.elements, Program.elemSize,
             Program.buffers, Program.sizes, sizeof_int, sizeof_long])

theorem transfers_script (p : Program) (heap : HostVar → Nat → Nat) (ρ : Nat → Response) :
    (p.script heap ρ).filterMap Call.transfer = p.transfers := by
  cases p <;> rfl

/-- C4.  Buffer sizes match, for both programs and every driver oracle: every
allocation, host-to-device copy and device-to-host copy issued in a run is for
one of the program's buffers, its byte count is the byte size of the host
arrays of the program, and that is the size the paired host array has in the
process (`sizeof(xs)`, or the size passed to `malloc`): 128 bytes = 32
elements of 4 bytes for `xs`/`d_x` in ptx-1, 524288 bytes = 65536 elements of
8 bytes for `rs`/`d_rs`, `gs`/`d_gs`, `bs`/`d_bs` in ptx_2.  Under a driver
all of whose calls succeed the allocations and copies are exactly those listed
in `Program.transfers`: one allocation, one copy in and one copy out per
buffer.  Computing `len = 256 * 256` does not wrap a 32-bit `int` and
`sizeof(long) * len` does not wrap `size_t`. -/
theorem buffer_sizes (p : Program) (d : Driver) (heap : HostVar → Nat → Nat) :
    (∀ e ∈ (p.run d heap).calls, ∀ t, e.1.transfer = some t →
      t.2.2 = p.bufferBytes ∧
      ∃ hv, (hv, t.2.1) ∈ p.buffers ∧ (t.1 = none ∨ t.1 = some hv) ∧
        (p.run d heap).state.hostSize hv = t.2.2) ∧
    (p.run okDriver heap).calls.filterMap (fun e => e.1.transfer) = p.transfers ∧
    Program.ptx_1.bufferBytes = 128 ∧ Program.ptx_2.bufferBytes = 524288 ∧
    wrap32 (256 * 256) = 256 * 256 ∧ ((256 : Int) * 256 < 2 ^ 31) ∧
    mulSizeT sizeof_long (toSizeT (wrap32 (256 * 256))) = sizeof_long * 65536 ∧
    sizeof_long * 65536 < 2 ^ 64 := by
  refine ⟨?_, ?_, by decide, by decide, by decide, by decide, by decide, by decide⟩
  · obtain ⟨ρ, k, hshape, hsz, -⟩ := run_normal p d heap
    have hps := callsOf_output p heap ρ
    intro e he t ht
    obtain ⟨j, hj⟩ := List.mem_iff_getElem?.mp he
    obtain ⟨hjk, -, hc, -⟩ := hshape.call_at hps hj
    obtain ⟨hdecl, hbytes, hv, hmem, hopt, hsize⟩ := transfer_script p heap ρ j e.1 hc t ht
    refine ⟨hbytes, hv, hmem, hopt, ?_⟩
    rw [hsz (by omega)]
    exact hsize
  · obtain ⟨ρ, -, hlog, -⟩ := success_run p okDriver heap (allSuccess_okDriver p heap)
    have hfst : (p.run okDriver heap).calls.map Prod.fst = p.script heap ρ := by
      unfold Outcome.calls
      rw [hlog, callsOf_append, callsOf_output, List.append_nil]
      exact map_fst_callsOf_eventsFrom ρ 0 _
    rw [← transfers_script p heap ρ, ← hfst, List.filterMap_map]
    rfl
/-- C5.  Kernel launch shape and arguments on the all-success run.  There are
responses `ρ` answering the calls of the script such that: call 4 resolved the
function handle for `"f"` (response `ρ 4`), the allocations wrote the device
pointer variables of the program's buffers in order (responses `ρ 5`, ...),
and the run contains exactly one launch: of the handle `(ρ 4).handle` read
from `cu_function`, with grid `(gridDimX, 1, 1)`, block `(blockDimX, 1, 1)`
(`(1,1,1)`/`(32,1,1)` in ptx-1, `(256,1,1)`/`(256,1,1)` in ptx_2), zero shared
memory bytes, stream `0`, `extra = 0`, and the argument list made of the
device pointer variables in allocation order, each holding the handle its
allocation returned.  Grid times block is the element count of the host
arrays (32, and 65536). -/
theorem launch_shape (p : Program) (d : Driver) (heap : HostVar → Nat → Nat)
    (h : AllSuccess (p.run d heap)) :
    ∃ ρ : Nat → Response,
      (p.run d heap).calls = answered ρ (p.script heap ρ) ∧
      (∃ hmod, (p.run d heap).calls[4]? =
        some (Call.cuModuleGetFunction .cu_function hmod "f", ρ 4)) ∧
      (p.run d heap).calls.filterMap (fun e => e.1.allocated.map (fun v => (v, e.2))) =
        (p.buffers.map Prod.snd).zip ((List.range p.buffers.length).map (fun i => ρ (5 + i))) ∧
      ((p.run d heap).calls.map Prod.fst).filter Call.isLaunch =
        [Call.cuLaunchKernel ⟨.cu_function, some (ρ 4).handle⟩ p.gridDimX 1 1 p.blockDimX 1 1
          0 0
          ((p.buffers.map Prod.snd).zipWith (fun v r => ⟨v, some r.handle⟩)
            ((List.range p.buffers.length).map (fun i => ρ (5 + i)))) 0] ∧
      p.gridDimX * 1 * 1 * (p.blockDimX * 1 * 1) = p.elements := by
  obtain ⟨ρ, -, hlog, -⟩ := success_run p d heap h
  have hcalls : (p.run d heap).calls = answered ρ (p.script heap ρ) := by
    unfold Outcome.calls answered
    rw [hlog, callsOf_append, callsOf_output, List.append_nil]
  refine ⟨ρ, hcalls, ?_, ?_, ?_, ?_⟩
  · rw [hcalls]
    cases p
    · exact ⟨_, rfl⟩
    · exact ⟨_, rfl⟩
  · rw [hcalls]
    cases p <;> rfl
  · rw [hcalls]
    cases p <;> rfl
  · cases p <;> rfl

theorem launch_shape_witness :
    AllSuccess (Program.ptx_2.run okDriver zeroHeap) ∧
    ∃ ρ : Nat → Response,
      ((Program.ptx_2.run okDriver zeroHeap).calls.map Prod.fst).filter Call.isLaunch =
        [Call.cuLaunchKernel ⟨.cu_function, some (ρ 4).handle⟩ 256 1 1 256 1 1 0 0
          [⟨.d_rs, some (ρ 5).handle⟩, ⟨.d_gs, some (ρ 6).handle⟩,
            ⟨.d_bs, some (ρ 7).handle⟩] 0] :=
  ⟨allSuccess_okDriver _ _,
    (launch_shape .ptx_2 okDriver zeroHeap (allSuccess_okDriver _ _)).imp
      fun _ hρ => hρ.2.2.2.1⟩
theorem prints_output (p : Program) (heap : HostVar → Nat → Nat) (ρ : Nat → Response) :
    printsOf (p.output heap ρ) = p.lines (p.hostEnd heap ρ) := by
  cases p
  · simp [Program.output, ptx_1.output, Program.lines, Program.hostEnd, printsOf, intAt,
      sizeof_int]
  · simp [Program.output, ptx_2.output, Program.lines, Program.hostEnd, printsOf, range16]

theorem copyOut_script (p : Program) (heap : HostVar → Nat → Nat) (ρ : Nat → Response)
    (j : Nat) (hv : HostVar) (src : HArg) (n : Nat)
    (hc : (p.script heap ρ)[j]? = some (Call.cuMemcpyDtoH_v2 hv src n)) :
    ∀ i < n, p.hostEnd heap ρ hv i = (ρ j).data i := by
  have hj : j < p.numCalls := by
    rw [← length_script p heap ρ]
    exact (List.getElem?_eq_some_iff.mp hc).1
  cases p
  · simp only [Program.numCalls] at hj
    interval_cases j <;>
      simp [Program.script, ptx_1.script] at hc
    obtain ⟨rfl, -, rfl⟩ := hc
    intro i hi
    simp [Program.hostEnd, ptx_1.xsFinal, hi]
  · simp only [Program.numCalls] at hj
    interval_cases j <;>
      simp [Program.script, ptx_2.script] at hc <;>
      obtain ⟨rfl, -, rfl⟩ := hc <;>
      intro i hi <;>
      simp [Program.hostEnd, ptx_2.copied, hi]

/-- C6.  Result retrieval and printing on the all-success run.  The run
reaches the end of `main` (no read outside a host array stops it); its log is
the driver calls, all of which returned `CUDA_SUCCESS`, followed by the
printed lines, so printing happens after every device-to-host copy; the
printed lines are `Program.lines` of final host memory: one line holding
`xs[0]` in ptx-1, sixteen lines holding `rs[x]`, `gs[x]`, `bs[x]` for
`x = 0, ..., 15` in ptx_2; final host memory holds, in every array that a
device-to-host copy filled, the bytes the driver delivered.  Every index
`i = y * 256 + x` of the print loop (`0 ≤ y < 1`, `0 ≤ x < 16`) is computed
without wrapping and lies in `0 ≤ i < 65536`, and the eight bytes read there
are inside the 524288 bytes of the array. -/
theorem print_results (p : Program) (d : Driver) (heap : HostVar → Nat → Nat)
    (h : AllSuccess (p.run d heap)) :
    (p.run d heap).halted = none ∧
    (p.run d heap).state.log =
      (p.run d heap).calls.map (fun e => Event.call e.1 e.2) ++
        (p.run d heap).prints.map (fun l => Event.print l.1 l.2) ∧
    (p.run d heap).prints = p.lines (p.run d heap).state.host ∧
    (p.run d heap).prints.length = (match p with | .ptx_1 => 1 | .ptx_2 => 16) ∧
    (∀ e ∈ (p.run d heap).calls, ∀ hv src n, e.1 = Call.cuMemcpyDtoH_v2 hv src n →
      ∀ i < n, (p.run d heap).state.host hv i = e.2.data i) ∧
    (∀ y x : Int, 0 ≤ y → y < 1 → 0 ≤ x → x < 16 →
      wrap32 (y * 256 + x) = y * 256 + x ∧ 0 ≤ y * 256 + x ∧ y * 256 + x < 65536 ∧
      sizeof_long * (y * 256 + x).toNat + sizeof_long ≤ Program.ptx_2.bufferBytes) := by
  obtain ⟨ρ, hsucc, hlog, hhalt, -, -, -, hhost⟩ := success_run p d heap h
  have hcalls : (p.run d heap).calls = answered ρ (p.script heap ρ) := by
    unfold Outcome.calls answered
    rw [hlog, callsOf_append, callsOf_output, List.append_nil]
  have hprints : (p.run d heap).prints = printsOf (p.output heap ρ) := by
    unfold Outcome.prints
    rw [hlog, printsOf_append, printsOf_eventsFrom, List.nil_append]
  refine ⟨hhalt, ?_, ?_, ?_, ?_, ?_⟩
  · rw [hprints, hcalls]
    unfold answered
    rw [← eventsFrom_eq_map, ← (output_eq_map p heap ρ).1]
    exact hlog
  · rw [hprints, hhost]
    exact prints_output p heap ρ
  · rw [hprints, prints_output]
    cases p <;> simp [Program.lines]
  · intro e he hv src n hc i hi
    obtain ⟨j, hj⟩ := List.mem_iff_getElem?.mp he
    rw [hcalls] at hj
    unfold answered at hj
    rw [getElem?_callsOf_eventsFrom] at hj
    rcases hcj : (p.script heap ρ)[j]? with _ | c
    · simp [hcj] at hj
    · rw [hcj] at hj
      simp only [Option.map_some', Option.some.injEq, Nat.zero_add] at hj
      subst hj
      simp only at hc
      subst hc
      rw [hhost]
      exact copyOut_script p heap ρ j hv src n hcj i hi
  · intro y x hy0 hy1 hx0 hx1
    have hy : y = 0 := by omega
    subst hy
    have hb : Program.ptx_2.bufferBytes = 524288 := by decide
    rw [hb]
    unfold wrap32 sizeof_long
    refine ⟨by omega, by omega, by omega, by omega⟩

theorem print_results_witness :
    AllSuccess (Program.ptx_1.run okDriver zeroHeap) ∧
    (Program.ptx_1.run okDriver zeroHeap).prints =
      Program.ptx_1.lines (Program.ptx_1.run okDriver zeroHeap).state.host :=
  ⟨allSuccess_okDriver _ _,
    (print_results .ptx_1 okDriver zeroHeap (allSuccess_okDriver _ _)).2.2.1⟩
theorem varsOf_append_call (log : List Event) (c : Call) (r : Response) :
    varsOf (log ++ [Event.call c r]) =
      if r.code = CUDA_SUCCESS then
        match c.out with
        | some v => Function.update (varsOf log) v (some r.handle)
        | none => varsOf log
      else varsOf log := by
  unfold varsOf
  rw [List.foldl_append]
  rfl

theorem varsOf_append_print (log : List Event) (fmt : String) (args : List Int) :
    varsOf (log ++ [Event.print fmt args]) = varsOf log := by
  unfold varsOf
  rw [List.foldl_append]
  rfl

/-- Output variables written by the calls of a log. -/
theorem varsOf_written (log : List Event)
    (hnd : ((callsOf log).filterMap (fun e => e.1.out)).Nodup)
    {e : Call × Response} (he : e ∈ callsOf log) (hs : e.2.code = CUDA_SUCCESS)
    {v : Var} (hv : e.1.out = some v) : varsOf log v = some e.2.handle := by
  induction log using List.reverseRecOn with
  | nil => simp [callsOf] at he
  | append_singleton l x ih =>
    rw [callsOf_append] at he hnd
    cases x with
    | print fmt args =>
      rw [varsOf_append_print]
      simp only [callsOf, List.append_nil] at he hnd
      exact ih hnd he
    | call c r =>
      rw [varsOf_append_call]
      simp only [callsOf, List.filterMap_append, List.filterMap_cons, List.filterMap_nil,
        List.mem_append, List.mem_singleton] at he hnd
      rcases he with he | rfl
      · have hin : v ∈ (callsOf l).filterMap (fun e => e.1.out) :=
          List.mem_filterMap.mpr ⟨e, he, hv⟩
        have hih := ih (List.Nodup.of_append_left hnd) he
        by_cases hc : r.code = CUDA_SUCCESS
        · rw [if_pos hc]
          rcases hco : c.out with _ | w
          · exact hih
          · have hne : v ≠ w := by
              rintro rfl
              rw [hco] at hnd
              exact (List.disjoint_of_nodup_append hnd) hin (by simp)
            show Function.update (varsOf l) w (some r.handle) v = some e.2.handle
            rw [Function.update_noteq hne]
            exact hih
        · rw [if_neg hc]
          exact hih
      · have hs' : r.code = CUDA_SUCCESS := hs
        have hv' : c.out = some v := hv
        rw [if_pos hs', hv']
        show Function.update (varsOf l) v (some r.handle) v = some r.handle
        rw [Function.update_same]

theorem outs_script_nodup (p : Program) (heap : HostVar → Nat → Nat) (ρ : Nat → Response) :
    ((p.script heap ρ).filterMap Call.out).Nodup := by
  cases p <;> simp [Program.script, ptx_1.script, ptx_2.script, Call.out]

theorem stages_operations (p : Program) : ∀ s ∈ p.stages, s ∈ p.operations := by
  cases p <;> simp [Program.stages, Program.operations]

theorem operations_stages (p : Program) : ∀ s ∈ p.operations, s ∈ p.stages := by
  cases p <;> simp [Program.stages, Program.operations]

theorem operations_not_release (p : Program) : ∀ s ∈ p.operations, s ∉ releaseOps := by
  cases p <;> simp [Program.operations, releaseOps]

/-- C7.  No handle is ever released, for both programs and every driver
oracle: every driver call of a run is one of the nine entry points in
`Program.operations` (with `cuModuleLoad` in ptx-1 and `cuModuleLoadData` in
ptx_2), none of which frees device memory, unloads a module or destroys a
context; each of the nine is used in the run against a driver all of whose
calls succeed; no handle variable is the output of two calls of a run; and a
handle variable written by a successful call still holds, in the final state,
the handle that call stored. -/
theorem no_release (p : Program) (d : Driver) (heap : HostVar → Nat → Nat) :
    (∀ e ∈ (p.run d heap).calls, e.1.name ∈ p.operations ∧ e.1.name ∉ releaseOps) ∧
    (∀ s ∈ p.operations, s ∈ (p.run okDriver heap).calls.map (fun e => e.1.name)) ∧
    ((p.run d heap).calls.filterMap (fun e => e.1.out)).Nodup ∧
    (∀ e ∈ (p.run d heap).calls, e.2.code = CUDA_SUCCESS → ∀ v, e.1.out = some v →
      (p.run d heap).state.vars v = some e.2.handle) := by
  obtain ⟨ρ, k, hshape, -, -⟩ := run_normal p d heap
  have hps := callsOf_output p heap ρ
  have hcalls := hshape.calls_eq hps
  have hfst : (p.run d heap).calls.map Prod.fst = (p.script heap ρ).take (k + 1) := by
    rw [hcalls]
    exact map_fst_callsOf_eventsFrom ρ 0 _
  have hnd : ((p.run d heap).calls.filterMap (fun e => e.1.out)).Nodup := by
    have : (p.run d heap).calls.filterMap (fun e => e.1.out) =
        ((p.script heap ρ).take (k + 1)).filterMap Call.out := by
      rw [← hfst, List.filterMap_map]
      rfl
    rw [this]
    exact ((List.take_sublist _ _).filterMap _).nodup (outs_script_nodup p heap ρ)
  refine ⟨?_, ?_, hnd, ?_⟩
  · intro e he
    have hin : e.1 ∈ (p.script heap ρ).take (k + 1) := by
      rw [← hfst]
      exact List.mem_map_of_mem Prod.fst he
    have hname : e.1.name ∈ p.stages := by
      rw [← names_script p heap ρ]
      exact List.mem_map_of_mem Call.name (List.mem_of_mem_take hin)
    exact ⟨stages_operations p _ hname, operations_not_release p _ (stages_operations p _ hname)⟩
  · intro s hs
    rw [(stage_order_names p okDriver heap (allSuccess_okDriver p heap))]
    exact operations_stages p s hs
  · intro e he hs v hv
    rw [hshape.2.2.2.2.2.1]
    exact varsOf_written _ hnd he hs hv

end Cuda
